import Mathlib

/-!
Verification of the AxmeClient request/retry/observation engine
(`src/client.ts` of the axme-sdk-typescript repository).

The development shallowly embeds the client's core functions:

* the error classifier `buildHttpError` with `extractErrorMessage` and
  `parseRetryAfter`;
* the retry loop of `AxmeClient.requestJson`, driven by an abstract
  transport `f : Nat → TransportOutcome` giving the outcome of the i-th
  physical attempt;
* the request descriptors built by the public operation wrappers
  (`createIntent`, the POST endpoint wrappers, and the MCP methods), i.e.
  the method / body / idempotency-key / retryable arguments each wrapper
  passes to `requestJson`;
* the result extraction of `AxmeClient.mcpRequest`;
* the `AxmeClient.observe` loop, driven by a script of per-cycle server
  responses (the stream fetch outcome and the poll outcome), together with
  `maxSeenSeq` and `isTerminalIntentEvent`.

JavaScript numbers are modelled as rationals: the source only performs
order comparisons, `Math.max` and `Number.isInteger` tests on them, which
rationals support faithfully.  Real-time waits (`delay`, `Date.now`,
`timeoutMs`, `waitSeconds`, `pollIntervalMs`) are recorded as data or
omitted: they gate nothing but wall-clock timing.
-/

/-- Model of a JavaScript/JSON value as exchanged by the client. -/
inductive Json where
  | null : Json
  | bool : Bool → Json
  | num : Rat → Json
  | str : String → Json
  | arr : List Json → Json
  | obj : List (String × Json) → Json

/-- First-match lookup in an object's field list (JS objects have unique keys,
so first-match agrees with JS property access). -/
def jsonLookup : List (String × Json) → String → Option Json
  | [], _ => none
  | p :: rest, key => if p.1 = key then some p.2 else jsonLookup rest key

/-- JavaScript property access `value[key]`: `none` models `undefined`
(also for property access on non-object values). -/
def Json.getProp : Json → String → Option Json
  | Json.obj fields, key => jsonLookup fields key
  | _, _ => none

/-- JavaScript truthiness of a JSON value. -/
def Json.truthy : Json → Bool
  | Json.null => false
  | Json.bool b => b
  | Json.num q => q != 0
  | Json.str s => s != ""
  | Json.arr _ => true
  | Json.obj _ => true

/-- Whether `typeof value === "object"` holds in JavaScript: true for null,
arrays and plain objects. -/
def Json.typeofObject : Json → Bool
  | Json.null => true
  | Json.arr _ => true
  | Json.obj _ => true
  | _ => false

/-- The `item && typeof item === "object"` test used by the pull path of
`observe` (and by `mcpRequest` on `error` and `result`): keeps exactly the
array and object values. -/
def jsKeep (j : Json) : Bool := j.truthy && j.typeofObject

/-- Object spread with override, `\x7b ...payload, key: value \x7d`: the key's
first occurrence is overwritten in place, or the binding is appended when the
key is absent. -/
def setProp (fields : List (String × Json)) (key : String) (value : Json) :
    List (String × Json) :=
  if (jsonLookup fields key).isSome then
    fields.map (fun p => if p.1 = key then (key, value) else p)
  else fields ++ [(key, value)]

/-- ASCII lowercasing of a character (header names are ASCII). -/
def asciiLowerChar (c : Char) : Char :=
  if 65 ≤ c.toNat ∧ c.toNat ≤ 90 then Char.ofNat (c.toNat + 32) else c

/-- ASCII lowercasing of a string. -/
def asciiLower (s : String) : String :=
  String.mk (s.data.map asciiLowerChar)

/-- Case-insensitive header lookup, as performed by the fetch `Headers.get`
API (`none` models a missing header, i.e. `null`). -/
def headerGet (headers : List (String × String)) (name : String) : Option String :=
  (headers.find? (fun p => asciiLower p.1 == asciiLower name)).map (fun p => p.2)

/-- Decimal value of a digit list. -/
def digitsVal (ds : List Char) : Nat :=
  ds.foldl (fun n c => n * 10 + (c.toNat - 48)) 0

/-- Model of JavaScript `Number.parseInt(s, 10)`: skip leading whitespace,
take an optional sign and then the longest digit run; `none` models `NaN`
(no digits found). -/
def jsParseInt10 (s : String) : Option Int :=
  let core : List Char → Option Nat := fun l =>
    let ds := l.takeWhile Char.isDigit
    if ds.isEmpty then none else some (digitsVal ds)
  match s.toList.dropWhile Char.isWhitespace with
  | '-' :: rest => (core rest).map (fun n => -(n : Int))
  | '+' :: rest => (core rest).map (fun n => (n : Int))
  | cs => (core cs).map (fun n => (n : Int))

/-- Embedding of `parseRetryAfter` (client.ts:993-1002): a falsy header value
(absent or empty) gives `undefined`, otherwise the base-10 integer parse,
with `NaN` mapped to `undefined`. -/
def parseRetryAfter (value : Option String) : Option Int :=
  match value with
  | none => none
  | some s => if s = "" then none else jsParseInt10 s

/-- The typed error taxonomy: `generic` is the base `AxmeHttpError` class,
the others are its subclasses `AxmeAuthError`, `AxmeValidationError`,
`AxmeRateLimitError`, `AxmeServerError` (errors.ts). -/
inductive AxmeErrorKind where
  | generic : AxmeErrorKind
  | auth : AxmeErrorKind
  | validation : AxmeErrorKind
  | rateLimit : AxmeErrorKind
  | server : AxmeErrorKind
deriving DecidableEq

/-- An `AxmeHttpError` value (errors.ts): the dynamic class is recorded in
`kind`. -/
structure AxmeHttpError where
  kind : AxmeErrorKind
  statusCode : Nat
  message : String
  body : Option Json
  requestId : Option String
  traceId : Option String
  retryAfter : Option Int

/-- A completed HTTP response as the client consumes it: status code,
headers, the body parsed as JSON when it parses (`response.json()` /
`response.clone().json()`), and the raw body text. -/
structure HttpResponse where
  status : Nat
  headers : List (String × String)
  bodyJson : Option Json
  text : String

/-- Trailing steps of `extractErrorMessage`: the top-level `message` field
when it is a non-empty string, else the fallback text. -/
def messageFromTop (b : Json) (fallback : String) : String :=
  match b.getProp "message" with
  | some (Json.str m) => if m.length > 0 then m else fallback
  | _ => fallback

/-- Steps of `extractErrorMessage` for a truthy object-typed body
(client.ts:977-989): a non-empty string `error` field wins, else an
object-typed `error` with a string `message` (of any length), else the
top-level `message`, else the fallback. -/
def extractFromObject (b : Json) (fallback : String) : String :=
  match b.getProp "error" with
  | some (Json.str e) => if e.length > 0 then e else messageFromTop b fallback
  | some ev =>
    if ev.truthy && ev.typeofObject then
      match ev.getProp "message" with
      | some (Json.str m) => m
      | _ => messageFromTop b fallback
    else messageFromTop b fallback
  | none => messageFromTop b fallback

/-- Embedding of `extractErrorMessage` (client.ts:973-991). -/
def extractErrorMessage (body : Option Json) (fallback : String) : String :=
  match body with
  | none => fallback
  | some b =>
    match b with
    | Json.str s => if s.length > 0 then s else fallback
    | Json.obj _ => extractFromObject b fallback
    | Json.arr _ => extractFromObject b fallback
    | _ => fallback

/-- Embedding of `buildHttpError` (client.ts:942-971): the error classifier. -/
def buildHttpError (r : HttpResponse) : AxmeHttpError :=
  { kind :=
      if r.status = 401 ∨ r.status = 403 then AxmeErrorKind.auth
      else if r.status = 400 ∨ r.status = 409 ∨ r.status = 413 ∨ r.status = 422 then
        AxmeErrorKind.validation
      else if r.status = 429 then AxmeErrorKind.rateLimit
      else if 500 ≤ r.status then AxmeErrorKind.server
      else AxmeErrorKind.generic,
    statusCode := r.status,
    message := extractErrorMessage r.bodyJson r.text,
    body := r.bodyJson,
    requestId := (headerGet r.headers "x-request-id").orElse
      (fun _ => headerGet r.headers "request-id"),
    traceId := (headerGet r.headers "x-trace-id").orElse
      (fun _ => headerGet r.headers "trace-id"),
    retryAfter := parseRetryAfter (headerGet r.headers "retry-after") }

/-- Embedding of `isRetryableStatus` (client.ts:922-924). -/
def isRetryableStatus (statusCode : Nat) : Bool :=
  statusCode == 429 || decide (500 ≤ statusCode)

/-- Outcome of one physical transport attempt: `fail` is a transport-level
exception from the fetch implementation, `resp` a completed response. -/
inductive TransportOutcome where
  | fail : TransportOutcome
  | resp : HttpResponse → TransportOutcome

/-- How a `requestJson` call can fail: a propagated transport failure, a
classified HTTP error, a body that is not valid JSON on a 2xx response, or
the `unreachable retry loop state` throw after the loop. -/
inductive ReqError where
  | transportFail : ReqError
  | httpError : AxmeHttpError → ReqError
  | invalidJson : ReqError
  | exhausted : ReqError

/-- Observable trace of one `requestJson` call: its result, the number of
physical transport attempts made, and the backoff waits (in milliseconds)
performed between attempts. -/
structure ReqTrace where
  result : Except ReqError Json
  calls : Nat
  waits : List Nat

/-- Embedding of `parseJsonResponse` (client.ts:935-940): `response.ok`
means a status in 200..299. -/
def parseJsonResponse (r : HttpResponse) : Except ReqError Json :=
  if 200 ≤ r.status ∧ r.status ≤ 299 then
    match r.bodyJson with
    | some j => Except.ok j
    | none => Except.error ReqError.invalidJson
  else Except.error (ReqError.httpError (buildHttpError r))

/-- The wait chosen before retrying a completed retryable-status response
(client.ts:757-762): the parsed `retry-after` header (seconds, floored at
zero, converted to milliseconds) when present, else exponential backoff. -/
def retryWait (backoff attempt : Nat) (r : HttpResponse) : Nat :=
  match parseRetryAfter (headerGet r.headers "retry-after") with
  | some ra => (max ra 0).toNat * 1000
  | none => backoff * 2 ^ attempt

/-- Embedding of the retry loop of `requestJson` (client.ts:739-767).
`attempt` is the current attempt index and the second argument the number
of attempts still allowed (`attempts - attempt` in the source); `n = 0`
therefore means this is the last allowed attempt. -/
def requestLoop (backoff : Nat) (retryable : Bool) (f : Nat → TransportOutcome) :
    Nat → Nat → ReqTrace
  | _, 0 => ⟨Except.error ReqError.exhausted, 0, []⟩
  | attempt, n + 1 =>
    match f attempt with
    | TransportOutcome.fail =>
      if n = 0 then ⟨Except.error ReqError.transportFail, 1, []⟩
      else
        let rest := requestLoop backoff retryable f (attempt + 1) n
        ⟨rest.result, rest.calls + 1, backoff * 2 ^ attempt :: rest.waits⟩
    | TransportOutcome.resp r =>
      if retryable ∧ n ≠ 0 ∧ isRetryableStatus r.status then
        let rest := requestLoop backoff retryable f (attempt + 1) n
        ⟨rest.result, rest.calls + 1, retryWait backoff attempt r :: rest.waits⟩
      else ⟨parseJsonResponse r, 1, []⟩

/-- The attempt budget of `requestJson` (client.ts:739). -/
def attemptBudget (maxRetries : Nat) (retryable : Bool) : Nat :=
  1 + (if retryable then maxRetries else 0)

/-- Embedding of `AxmeClient.requestJson` (client.ts:729-768), driven by an
abstract transport `f` giving the outcome of each physical attempt. -/
def requestJson (maxRetries backoff : Nat) (retryable : Bool)
    (f : Nat → TransportOutcome) : ReqTrace :=
  requestLoop backoff retryable f 0 (attemptBudget maxRetries retryable)

/-- JavaScript truthiness of an optional string: `Boolean(x)` on a
`string | undefined` value, as used by `retryable: Boolean(options.idempotencyKey)`
and by the `if (idempotencyKey)` header guard of `buildHeaders`. -/
def strOptTruthy : Option String → Bool
  | none => false
  | some s => s != ""

/-- The arguments a public operation wrapper passes to `requestJson`
(client.ts:729-737): method, path or absolute URL, optional body (kept as
the JSON object that is stringified), optional idempotency key, optional
trace id, and the retryable flag.  Query-parameter assembly (`buildUrl`,
`URL.searchParams`) is orthogonal to every claim and is not modelled in the
path. -/
structure RequestDescriptor where
  method : String
  pathOrUrl : String
  bodyJson : Option Json
  idempotencyKey : Option String
  traceId : Option String
  retryable : Bool

/-- `CreateIntentOptions` (client.ts:25-28). -/
structure CreateIntentOptions where
  correlationId : String
  idempotencyKey : Option String
  traceId : Option String

/-- The local mismatch test of `createIntent` (client.ts:149-152): the
payload embeds a string `correlation_id` different from the option. -/
def createIntentMismatch (payload : List (String × Json))
    (options : CreateIntentOptions) : Bool :=
  match jsonLookup payload "correlation_id" with
  | some (Json.str s) => s != options.correlationId
  | _ => false

/-- Embedding of `AxmeClient.createIntent` (client.ts:145-164): a local
`Error` (a plain string here, not a classified `AxmeHttpError`) on a
correlation-id mismatch, thrown before any descriptor reaches the request
engine; otherwise the POST descriptor for `/v1/intents`. -/
def createIntent (payload : List (String × Json)) (options : CreateIntentOptions) :
    Except String RequestDescriptor :=
  if createIntentMismatch payload options then
    Except.error "payload correlation_id must match options.correlationId"
  else
    Except.ok
      { method := "POST", pathOrUrl := "/v1/intents",
        bodyJson := some (Json.obj
          (setProp payload "correlation_id" (Json.str options.correlationId))),
        idempotencyKey := options.idempotencyKey,
        traceId := options.traceId,
        retryable := strOptTruthy options.idempotencyKey }

/-- `ResolveIntentOptions` (client.ts:39-41). -/
structure ResolveIntentOptions where
  idempotencyKey : Option String
  traceId : Option String

/-- Embedding of `AxmeClient.resolveIntent` (client.ts:202-214). -/
def resolveIntent (intentId : String) (payload : Json)
    (options : ResolveIntentOptions) : RequestDescriptor :=
  { method := "POST", pathOrUrl := "/v1/intents/" ++ intentId ++ "/resolve",
    bodyJson := some payload, idempotencyKey := options.idempotencyKey,
    traceId := options.traceId,
    retryable := strOptTruthy options.idempotencyKey }

/-- `ReplyInboxOptions` (client.ts:56-58). -/
structure ReplyInboxOptions where
  ownerAgent : Option String
  idempotencyKey : Option String
  traceId : Option String

/-- Embedding of `AxmeClient.replyInboxThread` (client.ts:327-339). -/
def replyInboxThread (threadId message : String) (options : ReplyInboxOptions) :
    RequestDescriptor :=
  { method := "POST", pathOrUrl := "/v1/inbox/" ++ threadId ++ "/reply",
    bodyJson := some (Json.obj [("message", Json.str message)]),
    idempotencyKey := options.idempotencyKey, traceId := options.traceId,
    retryable := strOptTruthy options.idempotencyKey }

/-- `IdempotentOwnerScopedOptions` (client.ts:106-108). -/
structure IdempotentOwnerScopedOptions where
  ownerAgent : Option String
  idempotencyKey : Option String
  traceId : Option String

/-- Embedding of `AxmeClient.delegateInboxThread` (client.ts:349-361). -/
def delegateInboxThread (threadId : String) (payload : Json)
    (options : IdempotentOwnerScopedOptions) : RequestDescriptor :=
  { method := "POST", pathOrUrl := "/v1/inbox/" ++ threadId ++ "/delegate",
    bodyJson := some payload, idempotencyKey := options.idempotencyKey,
    traceId := options.traceId,
    retryable := strOptTruthy options.idempotencyKey }

/-- Embedding of `AxmeClient.approveInboxThread` (client.ts:363-375). -/
def approveInboxThread (threadId : String) (payload : Json)
    (options : IdempotentOwnerScopedOptions) : RequestDescriptor :=
  { method := "POST", pathOrUrl := "/v1/inbox/" ++ threadId ++ "/approve",
    bodyJson := some payload, idempotencyKey := options.idempotencyKey,
    traceId := options.traceId,
    retryable := strOptTruthy options.idempotencyKey }

/-- Embedding of `AxmeClient.rejectInboxThread` (client.ts:377-389). -/
def rejectInboxThread (threadId : String) (payload : Json)
    (options : IdempotentOwnerScopedOptions) : RequestDescriptor :=
  { method := "POST", pathOrUrl := "/v1/inbox/" ++ threadId ++ "/reject",
    bodyJson := some payload, idempotencyKey := options.idempotencyKey,
    traceId := options.traceId,
    retryable := strOptTruthy options.idempotencyKey }

/-- Embedding of `AxmeClient.deleteInboxMessages` (client.ts:391-403). -/
def deleteInboxMessages (threadId : String) (payload : Json)
    (options : IdempotentOwnerScopedOptions) : RequestDescriptor :=
  { method := "POST",
    pathOrUrl := "/v1/inbox/" ++ threadId ++ "/messages/delete",
    bodyJson := some payload, idempotencyKey := options.idempotencyKey,
    traceId := options.traceId,
    retryable := strOptTruthy options.idempotencyKey }

/-- `DecideApprovalOptions` (client.ts:69-72). -/
structure DecideApprovalOptions where
  comment : Option String
  idempotencyKey : Option String
  traceId : Option String

/-- Embedding of `AxmeClient.decideApproval` (client.ts:405-421). -/
def decideApproval (approvalId decision : String)
    (options : DecideApprovalOptions) : RequestDescriptor :=
  { method := "POST",
    pathOrUrl := "/v1/approvals/" ++ approvalId ++ "/decision",
    bodyJson := some (Json.obj
      (match options.comment with
       | some c => [("decision", Json.str decision), ("comment", Json.str c)]
       | none => [("decision", Json.str decision)])),
    idempotencyKey := options.idempotencyKey, traceId := options.traceId,
    retryable := strOptTruthy options.idempotencyKey }

/-- `InviteWriteOptions` (client.ts:74-76); `MediaWriteOptions`,
`SchemaWriteOptions` and `UserWriteOptions` have the same shape. -/
structure InviteWriteOptions where
  idempotencyKey : Option String
  traceId : Option String

/-- Embedding of `AxmeClient.createInvite` (client.ts:431-442). -/
def createInvite (payload : Json) (options : InviteWriteOptions) :
    RequestDescriptor :=
  { method := "POST", pathOrUrl := "/v1/invites/create",
    bodyJson := some payload, idempotencyKey := options.idempotencyKey,
    traceId := options.traceId,
    retryable := strOptTruthy options.idempotencyKey }

/-- Embedding of `AxmeClient.acceptInvite` (client.ts:452-464). -/
def acceptInvite (token : String) (payload : Json)
    (options : InviteWriteOptions) : RequestDescriptor :=
  { method := "POST", pathOrUrl := "/v1/invites/" ++ token ++ "/accept",
    bodyJson := some payload, idempotencyKey := options.idempotencyKey,
    traceId := options.traceId,
    retryable := strOptTruthy options.idempotencyKey }

/-- Embedding of `AxmeClient.createMediaUpload` (client.ts:466-477). -/
def createMediaUpload (payload : Json) (options : InviteWriteOptions) :
    RequestDescriptor :=
  { method := "POST", pathOrUrl := "/v1/media/create-upload",
    bodyJson := some payload, idempotencyKey := options.idempotencyKey,
    traceId := options.traceId,
    retryable := strOptTruthy options.idempotencyKey }

/-- Embedding of `AxmeClient.finalizeMediaUpload` (client.ts:487-498). -/
def finalizeMediaUpload (payload : Json) (options : InviteWriteOptions) :
    RequestDescriptor :=
  { method := "POST", pathOrUrl := "/v1/media/finalize-upload",
    bodyJson := some payload, idempotencyKey := options.idempotencyKey,
    traceId := options.traceId,
    retryable := strOptTruthy options.idempotencyKey }

/-- Embedding of `AxmeClient.upsertSchema` (client.ts:500-511). -/
def upsertSchema (payload : Json) (options : InviteWriteOptions) :
    RequestDescriptor :=
  { method := "POST", pathOrUrl := "/v1/schemas",
    bodyJson := some payload, idempotencyKey := options.idempotencyKey,
    traceId := options.traceId,
    retryable := strOptTruthy options.idempotencyKey }

/-- Embedding of `AxmeClient.registerNick` (client.ts:596-607). -/
def registerNick (payload : Json) (options : InviteWriteOptions) :
    RequestDescriptor :=
  { method := "POST", pathOrUrl := "/v1/users/register-nick",
    bodyJson := some payload, idempotencyKey := options.idempotencyKey,
    traceId := options.traceId,
    retryable := strOptTruthy options.idempotencyKey }

/-- Embedding of `AxmeClient.renameNick` (client.ts:619-627). -/
def renameNick (payload : Json) (options : InviteWriteOptions) :
    RequestDescriptor :=
  { method := "POST", pathOrUrl := "/v1/users/rename-nick",
    bodyJson := some payload, idempotencyKey := options.idempotencyKey,
    traceId := options.traceId,
    retryable := strOptTruthy options.idempotencyKey }

/-- Embedding of `AxmeClient.updateUserProfile` (client.ts:639-650). -/
def updateUserProfile (payload : Json) (options : InviteWriteOptions) :
    RequestDescriptor :=
  { method := "POST", pathOrUrl := "/v1/users/profile/update",
    bodyJson := some payload, idempotencyKey := options.idempotencyKey,
    traceId := options.traceId,
    retryable := strOptTruthy options.idempotencyKey }

/-- Embedding of `AxmeClient.upsertWebhookSubscription` (client.ts:652-663). -/
def upsertWebhookSubscription (payload : Json) (options : InviteWriteOptions) :
    RequestDescriptor :=
  { method := "POST", pathOrUrl := "/v1/webhooks/subscriptions",
    bodyJson := some payload, idempotencyKey := options.idempotencyKey,
    traceId := options.traceId,
    retryable := strOptTruthy options.idempotencyKey }

/-- Embedding of `AxmeClient.publishWebhookEvent` (client.ts:681-692). -/
def publishWebhookEvent (payload : Json)
    (options : IdempotentOwnerScopedOptions) : RequestDescriptor :=
  { method := "POST", pathOrUrl := "/v1/webhooks/events",
    bodyJson := some payload, idempotencyKey := options.idempotencyKey,
    traceId := options.traceId,
    retryable := strOptTruthy options.idempotencyKey }

/-- Embedding of `AxmeClient.replayWebhookEvent` (client.ts:694-704): a POST
with no body. -/
def replayWebhookEvent (eventId : String)
    (options : IdempotentOwnerScopedOptions) : RequestDescriptor :=
  { method := "POST",
    pathOrUrl := "/v1/webhooks/events/" ++ eventId ++ "/replay",
    bodyJson := none, idempotencyKey := options.idempotencyKey,
    traceId := options.traceId,
    retryable := strOptTruthy options.idempotencyKey }

/-- The descriptor `AxmeClient.mcpRequest` (client.ts:770-787) passes to
`requestJson`: always a POST to the MCP endpoint path, with the JSON-RPC
payload as body and no `idempotencyKey` argument (so no `Idempotency-Key`
header is ever attached). -/
def mcpRequestDescriptor (mcpEndpointPath : String) (traceId : Option String)
    (retryable : Bool) (payload : Json) : RequestDescriptor :=
  { method := "POST", pathOrUrl := mcpEndpointPath, bodyJson := some payload,
    idempotencyKey := none, traceId := traceId, retryable := retryable }

/-- The JSON-RPC payload built by `mcpInitialize` (client.ts:522-529);
`rpcId` stands for the generated `crypto.randomUUID()`. -/
def mcpInitializePayload (rpcId protocolVersion : String) : Json :=
  Json.obj [("jsonrpc", Json.str "2.0"), ("id", Json.str rpcId),
    ("method", Json.str "initialize"),
    ("params", Json.obj [("protocolVersion", Json.str protocolVersion)])]

/-- Embedding of `AxmeClient.mcpInitialize` (client.ts:521-534): its request
descriptor.  The call is made with `retryable: true`. -/
def mcpInitializeDescriptor (mcpEndpointPath : String) (traceId : Option String)
    (rpcId protocolVersion : String) : RequestDescriptor :=
  mcpRequestDescriptor mcpEndpointPath traceId true
    (mcpInitializePayload rpcId protocolVersion)

/-- The JSON-RPC payload built by `mcpListTools` (client.ts:537-542). -/
def mcpListToolsPayload (rpcId : String) : Json :=
  Json.obj [("jsonrpc", Json.str "2.0"), ("id", Json.str rpcId),
    ("method", Json.str "tools/list"), ("params", Json.obj [])]

/-- Embedding of `AxmeClient.mcpListTools` (client.ts:536-546): its request
descriptor.  The call is made with `retryable: true`. -/
def mcpListToolsDescriptor (mcpEndpointPath : String) (traceId : Option String)
    (rpcId : String) : RequestDescriptor :=
  mcpRequestDescriptor mcpEndpointPath traceId true (mcpListToolsPayload rpcId)

/-- The retryable flag computed by `mcpCallTool` (client.ts:589):
`options.retryable ?? Boolean(options.idempotencyKey)`. -/
def mcpCallToolRetryable (retryableOption : Option Bool)
    (idempotencyKey : Option String) : Bool :=
  match retryableOption with
  | some b => b
  | none => strOptTruthy idempotencyKey

/-- Embedding of `AxmeClient.mcpCallTool` (client.ts:564-594): its request
descriptor, parameterised by the assembled JSON-RPC payload (argument
assembly and schema pre-validation do not affect the descriptor fields the
claims are about).  The idempotency key travels inside the tool arguments,
never as a header. -/
def mcpCallToolDescriptor (mcpEndpointPath : String) (traceId : Option String)
    (retryableOption : Option Bool) (idempotencyKey : Option String)
    (payload : Json) : RequestDescriptor :=
  mcpRequestDescriptor mcpEndpointPath traceId
    (mcpCallToolRetryable retryableOption idempotencyKey) payload

/-- Embedding of `buildMcpRpcError` (client.ts:806-831). -/
def buildMcpRpcError (errorPayload : Json) : AxmeHttpError :=
  let code : Rat :=
    match errorPayload.getProp "code" with
    | some (Json.num c) => c
    | _ => -32000
  let message : String :=
    match errorPayload.getProp "message" with
    | some (Json.str m) => if m.length > 0 then m else "MCP RPC error"
    | _ => "MCP RPC error"
  let body : Option Json := some (Json.obj
    (match errorPayload.getProp "data" with
     | some d => [("code", Json.num code), ("message", Json.str message), ("data", d)]
     | none => [("code", Json.num code), ("message", Json.str message)]))
  if code = -32004 then
    ⟨AxmeErrorKind.rateLimit, 429, message, body, none, none, none⟩
  else if code = -32001 ∨ code = -32003 then
    ⟨AxmeErrorKind.auth, 403, message, body, none, none, none⟩
  else if code = -32602 then
    ⟨AxmeErrorKind.validation, 422, message, body, none, none, none⟩
  else if code ≤ -32000 then
    ⟨AxmeErrorKind.server, 502, message, body, none, none, none⟩
  else ⟨AxmeErrorKind.generic, 400, message, body, none, none, none⟩

/-- The error thrown by `mcpRequest` when the 2xx envelope has no object
under `result` (client.ts:793-795). -/
def mcpMissingResultError (response : Json) : AxmeHttpError :=
  ⟨AxmeErrorKind.generic, 502, "invalid MCP response: missing result object",
    some response, none, none, none⟩

/-- Embedding of the envelope handling of `mcpRequest` (client.ts:788-803):
an object-typed `error` field raises the mapped RPC error; otherwise the
`result` field must be a truthy object-typed value or the 502 shape error
is raised. -/
def mcpExtractResult (response : Json) : Except AxmeHttpError Json :=
  match response.getProp "error" with
  | some rpcError =>
    if jsKeep rpcError then Except.error (buildMcpRpcError rpcError)
    else
      match response.getProp "result" with
      | some result =>
        if jsKeep result then Except.ok result
        else Except.error (mcpMissingResultError response)
      | none => Except.error (mcpMissingResultError response)
  | none =>
    match response.getProp "result" with
    | some result =>
      if jsKeep result then Except.ok result
      else Except.error (mcpMissingResultError response)
    | none => Except.error (mcpMissingResultError response)

/-- Embedding of `maxSeenSeq` (client.ts:1068-1074): the cursor advances
only on a `seq` field that is a non-negative integer number. -/
def maxSeenSeq (nextSince : Rat) (event : Json) : Rat :=
  match event.getProp "seq" with
  | some (Json.num seq) =>
    if seq.den = 1 ∧ 0 ≤ seq then max nextSince seq else nextSince
  | _ => nextSince

/-- Embedding of `isTerminalIntentEvent` (client.ts:1076-1083). -/
def isTerminalIntentEvent (event : Json) : Bool :=
  (match event.getProp "status" with
   | some (Json.str s) => s == "COMPLETED" || s == "FAILED" || s == "CANCELED"
   | _ => false) ||
  (match event.getProp "event_type" with
   | some (Json.str s) =>
     s == "intent.completed" || s == "intent.failed" || s == "intent.canceled"
   | _ => false)

/-- An error escaping a sub-request of `observe`: either an `AxmeHttpError`
instance (any of its kinds — the subclasses all pass the `instanceof
AxmeHttpError` test) or any other thrown value. -/
inductive ObsError where
  | http : AxmeHttpError → ObsError
  | other : String → ObsError

/-- The test at client.ts:267: the push-path error is swallowed (falling
back to the pull path) exactly when it is an `AxmeHttpError` with status
404, 405 or 501. -/
def isStreamFallbackError : ObsError → Bool
  | ObsError.http e =>
    e.statusCode == 404 || e.statusCode == 405 || e.statusCode == 501
  | ObsError.other _ => false

/-- One cycle of server behaviour feeding `observe`: the outcome of the
push-path `fetchIntentEventStream` call (already SSE-parsed into its list
of event objects) and the outcome of the pull-path `listIntentEvents` call,
were it reached. -/
structure ObserveCycleInput where
  stream : Except ObsError (List Json)
  poll : Except ObsError Json

/-- The 502 error thrown when the pull-path response has no array under
`events` (client.ts:277-279): note it is the base `AxmeHttpError` class. -/
def invalidEventsPayloadError (polled : Json) : AxmeHttpError :=
  ⟨AxmeErrorKind.generic, 502, "invalid intent events payload: events must be list",
    some polled, none, none, none⟩

/-- Result of yielding one list of events (the body of the two `for` loops
of `observe`): the cursor after the list, the events yielded, and whether a
terminal event stopped the generator.  With `skipNonObjects := true` this
is the pull-path loop (client.ts:288-298), which skips falsy or
non-object-typed items; with `false` the push-path loop (client.ts:259-265). -/
structure ProcessResult where
  cursor : Rat
  yielded : List Json
  terminal : Bool

/-- The shared event-yielding loop of `observe`. -/
def processEvents (skipNonObjects : Bool) : Rat → List Json → ProcessResult
  | cursor, [] => ⟨cursor, [], false⟩
  | cursor, e :: rest =>
    if skipNonObjects && !jsKeep e then processEvents skipNonObjects cursor rest
    else
      let c := maxSeenSeq cursor e
      if isTerminalIntentEvent e then ⟨c, [e], true⟩
      else
        let r := processEvents skipNonObjects c rest
        ⟨r.cursor, e :: r.yielded, r.terminal⟩

/-- How one `observe` cycle ends: stopping the generator (terminal event or
propagated error) or continuing into the next cycle with a new cursor. -/
inductive CycleOutcome where
  | stop : List Json → List Rat → Option ObsError → Rat → CycleOutcome
  | next : List Json → List Rat → Rat → CycleOutcome

/-- The pull-path phase of one `observe` cycle (client.ts:272-298):
`c1` is the cursor after the push phase (used as the poll's `since`),
`startCursor` the cursor the cycle started with (used by the stream
request), `ys1` the events already yielded by the push phase.  A `stop`
with `none` is a terminal return, with `some e` a propagated error. -/
def runCyclePoll (c1 startCursor : Rat) (ys1 : List Json)
    (poll : Except ObsError Json) : CycleOutcome :=
  match poll with
  | Except.error e => CycleOutcome.stop ys1 [startCursor, c1] (some e) c1
  | Except.ok polled =>
    match polled.getProp "events" with
    | some (Json.arr events) =>
      if events.isEmpty then CycleOutcome.next ys1 [startCursor, c1] c1
      else
        let r := processEvents true c1 events
        if r.terminal then
          CycleOutcome.stop (ys1 ++ r.yielded) [startCursor, c1] none r.cursor
        else CycleOutcome.next (ys1 ++ r.yielded) [startCursor, c1] r.cursor
    | _ =>
      CycleOutcome.stop ys1 [startCursor, c1]
        (some (ObsError.http (invalidEventsPayloadError polled))) c1

/-- One full cycle of the `observe` loop body (client.ts:239-299), without
the deadline checks (no `timeoutMs` is modelled; the deadline gates only
wall-clock timing). -/
def runCycle (cursor : Rat) (cyc : ObserveCycleInput) : CycleOutcome :=
  match cyc.stream with
  | Except.error e =>
    if isStreamFallbackError e then runCyclePoll cursor cursor [] cyc.poll
    else CycleOutcome.stop [] [cursor] (some e) cursor
  | Except.ok streamedEvents =>
    let r := processEvents false cursor streamedEvents
    if r.terminal then CycleOutcome.stop r.yielded [cursor] none r.cursor
    else runCyclePoll r.cursor cursor r.yielded cyc.poll

/-- How an observation run ends in the model: a terminal event returned the
generator, an error propagated, or the modelled server script ran out (the
real loop would keep polling). -/
inductive ObserveEnd where
  | terminal : ObserveEnd
  | failed : ObsError → ObserveEnd
  | fuelOut : ObserveEnd

/-- Observable trace of one `observe` call: the yielded events in order,
the cursor value at each request issued (stream request, then poll request,
per cycle), how the run ended, and the final cursor. -/
structure ObserveTrace where
  yielded : List Json
  sinceUsed : List Rat
  final : ObserveEnd
  endCursor : Rat

/-- Embedding of the `while (true)` loop of `AxmeClient.observe`
(client.ts:239-299), driven by a finite script of per-cycle server
responses. -/
def observeLoop : Rat → List ObserveCycleInput → ObserveTrace
  | cursor, [] => ⟨[], [], ObserveEnd.fuelOut, cursor⟩
  | cursor, cyc :: rest =>
    match runCycle cursor cyc with
    | CycleOutcome.stop ys su none e => ⟨ys, su, ObserveEnd.terminal, e⟩
    | CycleOutcome.stop ys su (some err) e => ⟨ys, su, ObserveEnd.failed err, e⟩
    | CycleOutcome.next ys su c2 =>
      let t := observeLoop c2 rest
      ⟨ys ++ t.yielded, su ++ t.sinceUsed, t.final, t.endCursor⟩

/-- Embedding of the entry validation of `observe` (client.ts:220-234) for
the parameters the claims mention: a negative `since` is rejected before
any request (the `waitSeconds`, `pollIntervalMs` and `timeoutMs` checks
concern only the unmodelled timing parameters). -/
def observe (since : Rat) (cycles : List ObserveCycleInput) :
    Except String ObserveTrace :=
  if since < 0 then Except.error "since must be >= 0"
  else Except.ok (observeLoop since cycles)

/-- A transport outcome on which a retryable call keeps retrying (when
attempts remain): a transport failure or a response with retryable status. -/
def retryContinues : TransportOutcome → Prop
  | TransportOutcome.fail => True
  | TransportOutcome.resp r => isRetryableStatus r.status = true

theorem requestLoop_calls_le (backoff : Nat) (retryable : Bool)
    (f : Nat → TransportOutcome) :
    ∀ (n attempt : Nat), (requestLoop backoff retryable f attempt n).calls ≤ n := by
  intro n
  induction n with
  | zero => intro attempt; simp [requestLoop]
  | succ m ih =>
    intro attempt
    simp only [requestLoop]
    cases f attempt with
    | fail =>
      by_cases hm : m = 0
      · simp [hm]
      · have := ih (attempt + 1)
        simp only [if_neg hm]
        omega
    | resp r =>
      by_cases hc : retryable = true ∧ m ≠ 0 ∧ isRetryableStatus r.status = true
      · have := ih (attempt + 1)
        simp only [if_pos hc]
        omega
      · simp only [if_neg hc]
        omega

theorem requestLoop_calls_pos (backoff : Nat) (retryable : Bool)
    (f : Nat → TransportOutcome) :
    ∀ (n attempt : Nat), 1 ≤ n →
      1 ≤ (requestLoop backoff retryable f attempt n).calls := by
  intro n
  induction n with
  | zero => intro attempt h; omega
  | succ m ih =>
    intro attempt _
    simp only [requestLoop]
    cases f attempt with
    | fail =>
      by_cases hm : m = 0
      · simp [hm]
      · simp only [if_neg hm]; omega
    | resp r =>
      by_cases hc : retryable = true ∧ m ≠ 0 ∧ isRetryableStatus r.status = true
      · simp only [if_pos hc]; omega
      · simp only [if_neg hc]; omega

theorem requestLoop_first (backoff : Nat) (f : Nat → TransportOutcome)
    (r : HttpResponse) (j : Json) (h2xx : 200 ≤ r.status) (h2xx' : r.status ≤ 299)
    (hb : r.bodyJson = some j) :
    ∀ (k attempt n : Nat), k < n →
      (∀ i, i < k → retryContinues (f (attempt + i))) →
      f (attempt + k) = TransportOutcome.resp r →
      (requestLoop backoff true f attempt n).result = Except.ok j ∧
      (requestLoop backoff true f attempt n).calls = k + 1 := by
  have hnr : isRetryableStatus r.status = false := by
    simp only [isRetryableStatus, Bool.or_eq_false_iff, beq_eq_false_iff_ne, ne_eq,
      decide_eq_false_iff_not]
    omega
  intro k
  induction k with
  | zero =>
    intro attempt n hk _ hf
    obtain ⟨m, rfl⟩ : ∃ m, n = m + 1 := ⟨n - 1, by omega⟩
    rw [Nat.add_zero] at hf
    simp only [requestLoop, hf]
    rw [if_neg (by simp [hnr])]
    constructor
    · simp only [parseJsonResponse]
      rw [if_pos ⟨h2xx, h2xx'⟩, hb]
    · rfl
  | succ k ih =>
    intro attempt n hk hcont hf
    obtain ⟨m, rfl⟩ : ∃ m, n = m + 1 := ⟨n - 1, by omega⟩
    have hm : k < m := by omega
    have hm0 : m ≠ 0 := by omega
    have hshift : ∀ i, i < k → retryContinues (f (attempt + 1 + i)) := by
      intro i hi
      have := hcont (i + 1) (by omega)
      rwa [show attempt + (i + 1) = attempt + 1 + i by omega] at this
    have hf' : f (attempt + 1 + k) = TransportOutcome.resp r := by
      rwa [show attempt + 1 + k = attempt + (k + 1) by omega]
    have hrec := ih (attempt + 1) m hm hshift hf'
    have h0 := hcont 0 (by omega)
    rw [Nat.add_zero] at h0
    simp only [requestLoop]
    cases hf0 : f attempt with
    | fail =>
      dsimp only
      rw [if_neg hm0]
      exact ⟨hrec.1, by simp [hrec.2]⟩
    | resp r' =>
      rw [hf0] at h0
      have hr' : isRetryableStatus r'.status = true := h0
      dsimp only
      rw [if_pos ⟨trivial, hm0, hr'⟩]
      exact ⟨hrec.1, by simp [hrec.2]⟩

theorem le_maxSeenSeq (c : Rat) (e : Json) : c ≤ maxSeenSeq c e := by
  unfold maxSeenSeq
  split
  · split
    · exact le_max_left _ _
    · exact le_rfl
  · exact le_rfl

theorem processEvents_cursor_le (skip : Bool) :
    ∀ (es : List Json) (c : Rat), c ≤ (processEvents skip c es).cursor := by
  intro es
  induction es with
  | nil => intro c; simp [processEvents]
  | cons e rest ih =>
    intro c
    simp only [processEvents]
    by_cases hk : (skip && !jsKeep e) = true
    · rw [if_pos hk]; exact ih c
    · rw [if_neg hk]
      by_cases ht : isTerminalIntentEvent e = true
      · rw [if_pos ht]; exact le_maxSeenSeq c e
      · rw [if_neg ht]
        exact le_trans (le_maxSeenSeq c e) (ih (maxSeenSeq c e))

theorem processEvents_sublist (skip : Bool) :
    ∀ (es : List Json) (c : Rat), (processEvents skip c es).yielded.Sublist es := by
  intro es
  induction es with
  | nil => intro c; simp [processEvents]
  | cons e rest ih =>
    intro c
    simp only [processEvents]
    by_cases hk : (skip && !jsKeep e) = true
    · rw [if_pos hk]; exact List.sublist_cons_of_sublist e (ih c)
    · rw [if_neg hk]
      by_cases ht : isTerminalIntentEvent e = true
      · rw [if_pos ht]
        exact List.Sublist.cons₂ e (List.nil_sublist rest)
      · rw [if_neg ht]
        exact List.Sublist.cons₂ e (ih (maxSeenSeq c e))

theorem processEvents_filter_sublist :
    ∀ (es : List Json) (c : Rat),
      (processEvents true c es).yielded.Sublist (es.filter (fun e => jsKeep e)) := by
  intro es
  induction es with
  | nil => intro c; simp [processEvents]
  | cons e rest ih =>
    intro c
    simp only [processEvents]
    by_cases hk : jsKeep e = true
    · rw [if_neg (by simp [hk])]
      rw [List.filter_cons_of_pos hk]
      by_cases ht : isTerminalIntentEvent e = true
      · rw [if_pos ht]
        exact List.Sublist.cons₂ e (List.nil_sublist _)
      · rw [if_neg ht]
        exact List.Sublist.cons₂ e (ih (maxSeenSeq c e))
    · rw [if_pos (by simp [Bool.not_eq_true] at hk; simp [hk])]
      rw [List.filter_cons_of_neg (by simp [hk])]
      exact ih c

theorem processEvents_filter_eq :
    ∀ (es : List Json) (c : Rat),
      (∀ e ∈ es, jsKeep e = true → isTerminalIntentEvent e = false) →
      (processEvents true c es).yielded = es.filter (fun e => jsKeep e) ∧
      (processEvents true c es).terminal = false := by
  intro es
  induction es with
  | nil => intro c _; simp [processEvents]
  | cons e rest ih =>
    intro c h
    have hrest : ∀ e ∈ rest, jsKeep e = true → isTerminalIntentEvent e = false :=
      fun x hx => h x (List.mem_cons_of_mem e hx)
    simp only [processEvents]
    by_cases hk : jsKeep e = true
    · have ht : isTerminalIntentEvent e = false := h e (List.mem_cons_self e rest) hk
      rw [if_neg (by simp [hk]), if_neg (by simp [ht])]
      have := ih (maxSeenSeq c e) hrest
      rw [List.filter_cons_of_pos hk]
      exact ⟨by simp [this.1], by simp [this.2]⟩
    · rw [if_pos (by simp [Bool.not_eq_true] at hk; simp [hk])]
      rw [List.filter_cons_of_neg (by simp [hk])]
      exact ih c hrest

theorem processEvents_not_terminal (skip : Bool) :
    ∀ (es : List Json) (c : Rat), (processEvents skip c es).terminal = false →
      ∀ e ∈ (processEvents skip c es).yielded, isTerminalIntentEvent e = false := by
  intro es
  induction es with
  | nil => intro c _; simp [processEvents]
  | cons e rest ih =>
    intro c hterm
    simp only [processEvents] at hterm ⊢
    by_cases hk : (skip && !jsKeep e) = true
    · rw [if_pos hk] at hterm ⊢; exact ih c hterm
    · rw [if_neg hk] at hterm ⊢
      by_cases ht : isTerminalIntentEvent e = true
      · rw [if_pos ht] at hterm; simp at hterm
      · rw [if_neg ht] at hterm ⊢
        intro x hx
        rcases List.mem_cons.mp hx with hx | hx
        · subst hx; simpa using ht
        · exact ih (maxSeenSeq c e) (by simpa using hterm) x hx

theorem processEvents_dropLast (skip : Bool) :
    ∀ (es : List Json) (c : Rat),
      ∀ e ∈ (processEvents skip c es).yielded.dropLast,
        isTerminalIntentEvent e = false := by
  intro es
  induction es with
  | nil => intro c; simp [processEvents]
  | cons e rest ih =>
    intro c
    simp only [processEvents]
    by_cases hk : (skip && !jsKeep e) = true
    · rw [if_pos hk]; exact ih c
    · rw [if_neg hk]
      by_cases ht : isTerminalIntentEvent e = true
      · rw [if_pos ht]; simp
      · rw [if_neg ht]
        intro x hx
        by_cases hnil : (processEvents skip (maxSeenSeq c e) rest).yielded = []
        · simp [hnil] at hx
        · rw [List.dropLast_cons_of_ne_nil hnil] at hx
          rcases List.mem_cons.mp hx with hx | hx
          · subst hx; simpa using ht
          · exact ih (maxSeenSeq c e) x hx

/-- A list is non-decreasing when read starting from the anchor value `c`. -/
def monoFrom : Rat → List Rat → Prop
  | _, [] => True
  | c, x :: xs => c ≤ x ∧ monoFrom x xs

theorem monoFrom_of_le {b c : Rat} {l : List Rat} (h : b ≤ c)
    (hm : monoFrom c l) : monoFrom b l := by
  cases l with
  | nil => trivial
  | cons x xs => exact ⟨le_trans h hm.1, hm.2⟩

theorem monoFrom_all {c : Rat} : ∀ {l : List Rat}, monoFrom c l →
    ∀ x ∈ l, c ≤ x := by
  intro l
  induction l generalizing c with
  | nil => intro _ x hx; simp at hx
  | cons y ys ih =>
    intro hm x hx
    rcases List.mem_cons.mp hx with hx | hx
    · subst hx; exact hm.1
    · exact le_trans hm.1 (ih hm.2 x hx)

/-- The events a cycle's server responses carry, in served order: the
stream page then the poll page. -/
def cycleEvents (cyc : ObserveCycleInput) : List Json :=
  (match cyc.stream with
   | Except.ok evs => evs
   | Except.error _ => []) ++
  (match cyc.poll with
   | Except.ok polled =>
     match polled.getProp "events" with
     | some (Json.arr es) => es
     | _ => []
   | Except.error _ => [])

/-- All events served across a script of cycles, in order. -/
def servedEvents (cycles : List ObserveCycleInput) : List Json :=
  (cycles.map cycleEvents).flatten

/-- The events yielded by a cycle outcome. -/
def CycleOutcome.ys : CycleOutcome → List Json
  | CycleOutcome.stop ys _ _ _ => ys
  | CycleOutcome.next ys _ _ => ys

/-- The cursor list of a cycle outcome with its end cursor appended. -/
def CycleOutcome.cursorsTo : CycleOutcome → List Rat
  | CycleOutcome.stop _ su _ ec => su ++ [ec]
  | CycleOutcome.next _ su c2 => su ++ [c2]

theorem runCyclePoll_ys (c1 startCursor : Rat) (ys1 : List Json)
    (poll : Except ObsError Json) :
    ∃ ys2, (runCyclePoll c1 startCursor ys1 poll).ys = ys1 ++ ys2 ∧
      ys2.Sublist
        (match poll with
         | Except.ok polled =>
           match polled.getProp "events" with
           | some (Json.arr es) => es
           | _ => []
         | Except.error _ => []) := by
  cases poll with
  | error e =>
    exact ⟨[], by simp [runCyclePoll, CycleOutcome.ys], List.nil_sublist _⟩
  | ok polled =>
    cases hp : polled.getProp "events" with
    | none =>
      exact ⟨[], by simp [runCyclePoll, hp, CycleOutcome.ys], List.nil_sublist _⟩
    | some v =>
      cases v with
      | arr es =>
        by_cases he : es.isEmpty = true
        · exact ⟨[], by simp [runCyclePoll, hp, he, CycleOutcome.ys],
            List.nil_sublist _⟩
        · by_cases ht : (processEvents true c1 es).terminal = true
          · refine ⟨(processEvents true c1 es).yielded, ?_, ?_⟩
            · simp [runCyclePoll, hp, he, ht, CycleOutcome.ys]
            · simpa [hp] using processEvents_sublist true es c1
          · refine ⟨(processEvents true c1 es).yielded, ?_, ?_⟩
            · simp [runCyclePoll, hp, he, ht, CycleOutcome.ys]
            · simpa [hp] using processEvents_sublist true es c1
      | null =>
        exact ⟨[], by simp [runCyclePoll, hp, CycleOutcome.ys], List.nil_sublist _⟩
      | bool b =>
        exact ⟨[], by simp [runCyclePoll, hp, CycleOutcome.ys], List.nil_sublist _⟩
      | num q =>
        exact ⟨[], by simp [runCyclePoll, hp, CycleOutcome.ys], List.nil_sublist _⟩
      | str s =>
        exact ⟨[], by simp [runCyclePoll, hp, CycleOutcome.ys], List.nil_sublist _⟩
      | obj fs =>
        exact ⟨[], by simp [runCyclePoll, hp, CycleOutcome.ys], List.nil_sublist _⟩

theorem runCycle_ys_sublist (c : Rat) (cyc : ObserveCycleInput) :
    (runCycle c cyc).ys.Sublist (cycleEvents cyc) := by
  unfold runCycle cycleEvents
  cases cyc.stream with
  | error e =>
    dsimp only
    by_cases hf : isStreamFallbackError e = true
    · rw [if_pos hf]
      obtain ⟨ys2, hys, hsub⟩ := runCyclePoll_ys c c [] cyc.poll
      rw [hys]
      simpa using List.Sublist.append (List.nil_sublist []) hsub
    · rw [if_neg hf]
      simp [CycleOutcome.ys]
  | ok evs =>
    dsimp only
    by_cases ht : (processEvents false c evs).terminal = true
    · rw [if_pos ht]
      simp only [CycleOutcome.ys]
      exact (processEvents_sublist false evs c).trans (List.sublist_append_left _ _)
    · rw [if_neg ht]
      obtain ⟨ys2, hys, hsub⟩ :=
        runCyclePoll_ys (processEvents false c evs).cursor c
          (processEvents false c evs).yielded cyc.poll
      rw [hys]
      exact List.Sublist.append (processEvents_sublist false evs c) hsub

theorem mem_of_mem_dropLast {α : Type} : ∀ {l : List α} {e : α},
    e ∈ l.dropLast → e ∈ l := by
  intro l
  induction l with
  | nil => intro e h; simp at h
  | cons a t ih =>
    intro e h
    by_cases hnil : t = []
    · subst hnil; simp at h
    · rw [List.dropLast_cons_of_ne_nil hnil] at h
      rcases List.mem_cons.mp h with h | h
      · simp [h]
      · exact List.mem_cons_of_mem _ (ih h)

theorem mem_dropLast_append {α : Type} {ys : List α} {e : α} :
    ∀ {xs : List α}, e ∈ (xs ++ ys).dropLast → e ∈ xs ∨ e ∈ ys.dropLast := by
  intro xs
  induction xs with
  | nil => intro h; right; simpa using h
  | cons x xs' ih =>
    intro h
    by_cases hnil : (xs' ++ ys) = []
    · rcases List.append_eq_nil.mp hnil with ⟨h1, h2⟩
      subst h1; subst h2; simp at h
    · rw [List.cons_append, List.dropLast_cons_of_ne_nil hnil] at h
      rcases List.mem_cons.mp h with h | h
      · exact Or.inl (by simp [h])
      · rcases ih h with h | h
        · exact Or.inl (List.mem_cons_of_mem _ h)
        · exact Or.inr h

theorem forall_mem_dropLast_append {α : Type} {P : α → Prop} {xs ys : List α}
    (hx : ∀ e ∈ xs, P e) (hy : ∀ e ∈ ys.dropLast, P e) :
    ∀ e ∈ (xs ++ ys).dropLast, P e := by
  intro e he
  rcases mem_dropLast_append he with h | h
  · exact hx e h
  · exact hy e h

theorem runCyclePoll_not_term (c1 c0 : Rat) (ys1 : List Json)
    (poll : Except ObsError Json)
    (h1 : ∀ e ∈ ys1, isTerminalIntentEvent e = false) :
    (∀ ys su c2, runCyclePoll c1 c0 ys1 poll = CycleOutcome.next ys su c2 →
      ∀ e ∈ ys, isTerminalIntentEvent e = false) ∧
    (∀ ys su fin ec, runCyclePoll c1 c0 ys1 poll = CycleOutcome.stop ys su fin ec →
      ∀ e ∈ ys.dropLast, isTerminalIntentEvent e = false) := by
  have hys1drop : ∀ e ∈ ys1.dropLast, isTerminalIntentEvent e = false :=
    fun e he => h1 e (mem_of_mem_dropLast he)
  cases poll with
  | error e =>
    refine ⟨?_, ?_⟩
    · intro ys su c2 heq; simp [runCyclePoll] at heq
    · intro ys su fin ec heq
      simp only [runCyclePoll, CycleOutcome.stop.injEq] at heq
      rw [← heq.1]
      exact hys1drop
  | ok polled =>
    cases hp : polled.getProp "events" with
    | some v =>
      cases v with
      | arr es =>
        by_cases he : es.isEmpty = true
        · refine ⟨?_, ?_⟩
          · intro ys su c2 heq
            simp only [runCyclePoll, hp, if_pos he, CycleOutcome.next.injEq] at heq
            rw [← heq.1]
            exact h1
          · intro ys su fin ec heq
            simp [runCyclePoll, hp, if_pos he] at heq
        · by_cases ht : (processEvents true c1 es).terminal = true
          · refine ⟨?_, ?_⟩
            · intro ys su c2 heq
              simp [runCyclePoll, hp, if_neg he, if_pos ht] at heq
            · intro ys su fin ec heq
              simp only [runCyclePoll, hp, if_neg he, if_pos ht,
                CycleOutcome.stop.injEq] at heq
              rw [← heq.1]
              exact forall_mem_dropLast_append h1 (processEvents_dropLast true es c1)
          · refine ⟨?_, ?_⟩
            · intro ys su c2 heq
              simp only [runCyclePoll, hp, if_neg he, if_neg ht,
                CycleOutcome.next.injEq] at heq
              rw [← heq.1]
              intro x hx
              rcases List.mem_append.mp hx with hx | hx
              · exact h1 x hx
              · exact processEvents_not_terminal true es c1
                  (by simpa using ht) x hx
            · intro ys su fin ec heq
              simp [runCyclePoll, hp, if_neg he, if_neg ht] at heq
      | null =>
        refine ⟨?_, ?_⟩
        · intro ys su c2 heq; simp [runCyclePoll, hp] at heq
        · intro ys su fin ec heq
          simp only [runCyclePoll, hp, CycleOutcome.stop.injEq] at heq
          rw [← heq.1]; exact hys1drop
      | bool b =>
        refine ⟨?_, ?_⟩
        · intro ys su c2 heq; simp [runCyclePoll, hp] at heq
        · intro ys su fin ec heq
          simp only [runCyclePoll, hp, CycleOutcome.stop.injEq] at heq
          rw [← heq.1]; exact hys1drop
      | num q =>
        refine ⟨?_, ?_⟩
        · intro ys su c2 heq; simp [runCyclePoll, hp] at heq
        · intro ys su fin ec heq
          simp only [runCyclePoll, hp, CycleOutcome.stop.injEq] at heq
          rw [← heq.1]; exact hys1drop
      | str s =>
        refine ⟨?_, ?_⟩
        · intro ys su c2 heq; simp [runCyclePoll, hp] at heq
        · intro ys su fin ec heq
          simp only [runCyclePoll, hp, CycleOutcome.stop.injEq] at heq
          rw [← heq.1]; exact hys1drop
      | obj fs =>
        refine ⟨?_, ?_⟩
        · intro ys su c2 heq; simp [runCyclePoll, hp] at heq
        · intro ys su fin ec heq
          simp only [runCyclePoll, hp, CycleOutcome.stop.injEq] at heq
          rw [← heq.1]; exact hys1drop
    | none =>
      refine ⟨?_, ?_⟩
      · intro ys su c2 heq; simp [runCyclePoll, hp] at heq
      · intro ys su fin ec heq
        simp only [runCyclePoll, hp, CycleOutcome.stop.injEq] at heq
        rw [← heq.1]; exact hys1drop

theorem runCycle_not_term (c : Rat) (cyc : ObserveCycleInput) :
    (∀ ys su c2, runCycle c cyc = CycleOutcome.next ys su c2 →
      ∀ e ∈ ys, isTerminalIntentEvent e = false) ∧
    (∀ ys su fin ec, runCycle c cyc = CycleOutcome.stop ys su fin ec →
      ∀ e ∈ ys.dropLast, isTerminalIntentEvent e = false) := by
  cases hs : cyc.stream with
  | error e =>
    by_cases hf : isStreamFallbackError e = true
    · have := runCyclePoll_not_term c c [] cyc.poll (by simp)
      refine ⟨?_, ?_⟩
      · intro ys su c2 heq
        rw [runCycle, hs] at heq
        dsimp only at heq
        rw [if_pos hf] at heq
        exact this.1 ys su c2 heq
      · intro ys su fin ec heq
        rw [runCycle, hs] at heq
        dsimp only at heq
        rw [if_pos hf] at heq
        exact this.2 ys su fin ec heq
    · refine ⟨?_, ?_⟩
      · intro ys su c2 heq
        rw [runCycle, hs] at heq
        dsimp only at heq
        rw [if_neg hf] at heq
        simp at heq
      · intro ys su fin ec heq
        rw [runCycle, hs] at heq
        dsimp only at heq
        rw [if_neg hf] at heq
        simp only [CycleOutcome.stop.injEq] at heq
        rw [← heq.1]
        simp
  | ok evs =>
    by_cases ht : (processEvents false c evs).terminal = true
    · refine ⟨?_, ?_⟩
      · intro ys su c2 heq
        rw [runCycle, hs] at heq
        dsimp only at heq
        rw [if_pos ht] at heq
        simp at heq
      · intro ys su fin ec heq
        rw [runCycle, hs] at heq
        dsimp only at heq
        rw [if_pos ht] at heq
        simp only [CycleOutcome.stop.injEq] at heq
        rw [← heq.1]
        exact processEvents_dropLast false evs c
    · have hnt := processEvents_not_terminal false evs c (by simpa using ht)
      have := runCyclePoll_not_term (processEvents false c evs).cursor c
        (processEvents false c evs).yielded cyc.poll hnt
      refine ⟨?_, ?_⟩
      · intro ys su c2 heq
        rw [runCycle, hs] at heq
        dsimp only at heq
        rw [if_neg ht] at heq
        exact this.1 ys su c2 heq
      · intro ys su fin ec heq
        rw [runCycle, hs] at heq
        dsimp only at heq
        rw [if_neg ht] at heq
        exact this.2 ys su fin ec heq

theorem observeLoop_stop {c : Rat} {cyc : ObserveCycleInput} {ys : List Json}
    {su : List Rat} {fin : Option ObsError} {ec : Rat}
    {rest : List ObserveCycleInput}
    (h : runCycle c cyc = CycleOutcome.stop ys su fin ec) :
    observeLoop c (cyc :: rest) =
      ⟨ys, su,
        (match fin with
         | none => ObserveEnd.terminal
         | some err => ObserveEnd.failed err), ec⟩ := by
  cases fin with
  | none => simp [observeLoop, h]
  | some err => simp [observeLoop, h]

theorem observeLoop_next {c : Rat} {cyc : ObserveCycleInput} {ys : List Json}
    {su : List Rat} {c2 : Rat} {rest : List ObserveCycleInput}
    (h : runCycle c cyc = CycleOutcome.next ys su c2) :
    observeLoop c (cyc :: rest) =
      ⟨ys ++ (observeLoop c2 rest).yielded, su ++ (observeLoop c2 rest).sinceUsed,
        (observeLoop c2 rest).final, (observeLoop c2 rest).endCursor⟩ := by
  simp [observeLoop, h]

theorem observeLoop_yield_sublist :
    ∀ (cycles : List ObserveCycleInput) (c : Rat),
      (observeLoop c cycles).yielded.Sublist (servedEvents cycles) := by
  intro cycles
  induction cycles with
  | nil => intro c; simp [observeLoop, servedEvents]
  | cons cyc rest ih =>
    intro c
    have hserved : servedEvents (cyc :: rest) = cycleEvents cyc ++ servedEvents rest := by
      simp [servedEvents]
    cases hrc : runCycle c cyc with
    | stop ys su fin ec =>
      rw [observeLoop_stop hrc, hserved]
      have hsub := runCycle_ys_sublist c cyc
      rw [hrc] at hsub
      exact hsub.trans (List.sublist_append_left _ _)
    | next ys su c2 =>
      rw [observeLoop_next hrc, hserved]
      have hsub := runCycle_ys_sublist c cyc
      rw [hrc] at hsub
      exact List.Sublist.append hsub (ih c2)

theorem observeLoop_dropLast :
    ∀ (cycles : List ObserveCycleInput) (c : Rat),
      ∀ e ∈ (observeLoop c cycles).yielded.dropLast,
        isTerminalIntentEvent e = false := by
  intro cycles
  induction cycles with
  | nil => intro c; simp [observeLoop]
  | cons cyc rest ih =>
    intro c
    cases hrc : runCycle c cyc with
    | stop ys su fin ec =>
      rw [observeLoop_stop hrc]
      exact (runCycle_not_term c cyc).2 ys su fin ec hrc
    | next ys su c2 =>
      rw [observeLoop_next hrc]
      exact forall_mem_dropLast_append
        ((runCycle_not_term c cyc).1 ys su c2 hrc) (ih c2)

theorem monoFrom_splice {c m : Rat} : ∀ {l l2 : List Rat},
    monoFrom c (l ++ [m]) → monoFrom m l2 → monoFrom c (l ++ l2) := by
  intro l
  induction l generalizing c with
  | nil =>
    intro l2 h1 h2
    exact monoFrom_of_le h1.1 h2
  | cons x xs ih =>
    intro l2 h1 h2
    exact ⟨h1.1, ih h1.2 h2⟩

theorem runCyclePoll_mono (c1 c0 : Rat) (ys1 : List Json)
    (poll : Except ObsError Json) (h01 : c0 ≤ c1) :
    monoFrom c0 (runCyclePoll c1 c0 ys1 poll).cursorsTo := by
  cases poll with
  | error e =>
    simp only [runCyclePoll, CycleOutcome.cursorsTo]
    exact ⟨le_rfl, h01, le_rfl, trivial⟩
  | ok polled =>
    cases hp : polled.getProp "events" with
    | some v =>
      cases v with
      | arr es =>
        by_cases he : es.isEmpty = true
        · simp only [runCyclePoll, hp, if_pos he, CycleOutcome.cursorsTo]
          exact ⟨le_rfl, h01, le_rfl, trivial⟩
        · by_cases ht : (processEvents true c1 es).terminal = true
          · simp only [runCyclePoll, hp, if_neg he, if_pos ht, CycleOutcome.cursorsTo]
            exact ⟨le_rfl, h01, processEvents_cursor_le true es c1, trivial⟩
          · simp only [runCyclePoll, hp, if_neg he, if_neg ht, CycleOutcome.cursorsTo]
            exact ⟨le_rfl, h01, processEvents_cursor_le true es c1, trivial⟩
      | null =>
        simp only [runCyclePoll, hp, CycleOutcome.cursorsTo]
        exact ⟨le_rfl, h01, le_rfl, trivial⟩
      | bool b =>
        simp only [runCyclePoll, hp, CycleOutcome.cursorsTo]
        exact ⟨le_rfl, h01, le_rfl, trivial⟩
      | num q =>
        simp only [runCyclePoll, hp, CycleOutcome.cursorsTo]
        exact ⟨le_rfl, h01, le_rfl, trivial⟩
      | str s =>
        simp only [runCyclePoll, hp, CycleOutcome.cursorsTo]
        exact ⟨le_rfl, h01, le_rfl, trivial⟩
      | obj fs =>
        simp only [runCyclePoll, hp, CycleOutcome.cursorsTo]
        exact ⟨le_rfl, h01, le_rfl, trivial⟩
    | none =>
      simp only [runCyclePoll, hp, CycleOutcome.cursorsTo]
      exact ⟨le_rfl, h01, le_rfl, trivial⟩

theorem runCycle_mono (c : Rat) (cyc : ObserveCycleInput) :
    monoFrom c (runCycle c cyc).cursorsTo := by
  cases hs : cyc.stream with
  | error e =>
    rw [runCycle, hs]
    dsimp only
    by_cases hf : isStreamFallbackError e = true
    · rw [if_pos hf]
      exact runCyclePoll_mono c c [] cyc.poll le_rfl
    · rw [if_neg hf]
      exact ⟨le_rfl, le_rfl, trivial⟩
  | ok evs =>
    rw [runCycle, hs]
    dsimp only
    by_cases ht : (processEvents false c evs).terminal = true
    · rw [if_pos ht]
      exact ⟨le_rfl, processEvents_cursor_le false evs c, trivial⟩
    · rw [if_neg ht]
      exact runCyclePoll_mono (processEvents false c evs).cursor c
        (processEvents false c evs).yielded cyc.poll
        (processEvents_cursor_le false evs c)

theorem observeLoop_mono :
    ∀ (cycles : List ObserveCycleInput) (c : Rat),
      monoFrom c ((observeLoop c cycles).sinceUsed ++
        [(observeLoop c cycles).endCursor]) := by
  intro cycles
  induction cycles with
  | nil =>
    intro c
    show monoFrom c ([] ++ [c])
    exact ⟨le_rfl, trivial⟩
  | cons cyc rest ih =>
    intro c
    cases hrc : runCycle c cyc with
    | stop ys su fin ec =>
      rw [observeLoop_stop hrc]
      have := runCycle_mono c cyc
      rw [hrc] at this
      exact this
    | next ys su c2 =>
      rw [observeLoop_next hrc]
      have h1 := runCycle_mono c cyc
      rw [hrc] at h1
      show monoFrom c ((su ++ (observeLoop c2 rest).sinceUsed) ++
        [(observeLoop c2 rest).endCursor])
      rw [List.append_assoc]
      exact monoFrom_splice h1 (ih c2)

/-- Transcription of the claimed status-to-kind mapping, written from the
specification's words (first match wins: 401/403 auth; 400/409/413/422
validation; 429 rate-limit; at least 500 server; otherwise generic), to be
compared against the classifier embedded from the source. -/
def specStatusKind (status : Nat) : AxmeErrorKind :=
  if status = 401 ∨ status = 403 then AxmeErrorKind.auth
  else if status = 400 ∨ status = 409 ∨ status = 413 ∨ status = 422 then
    AxmeErrorKind.validation
  else if status = 429 then AxmeErrorKind.rateLimit
  else if 500 ≤ status then AxmeErrorKind.server
  else AxmeErrorKind.generic

/-- The `seq` value that advances the observation cursor: present exactly
when the event's `seq` field is a number that is a non-negative integer
(the `typeof seq === "number" && Number.isInteger(seq) && seq >= 0` test of
`maxSeenSeq`). -/
def validSeq (e : Json) : Option Rat :=
  match e.getProp "seq" with
  | some (Json.num q) => if q.den = 1 ∧ 0 ≤ q then some q else none
  | _ => none

/-- The numeric `seq` values of a list of events, in order (events whose
`seq` field is absent or not a number contribute nothing). -/
def numericSeqs (ys : List Json) : List Rat :=
  ys.filterMap (fun e =>
    match e.getProp "seq" with
    | some (Json.num q) => some q
    | _ => none)

/-- Whether `buildHeaders` (client.ts:875-888) attaches the
`Idempotency-Key` header for this descriptor: it does iff the key is a
truthy (non-empty) string. -/
def carriesIdempotencyKeyHeader (d : RequestDescriptor) : Bool :=
  strOptTruthy d.idempotencyKey

/-- The idempotency invariant claimed for a request descriptor: a POST that
carries no `Idempotency-Key` header is never marked retryable. -/
def postRetrySafe (d : RequestDescriptor) : Prop :=
  d.method = "POST" → carriesIdempotencyKeyHeader d = false → d.retryable = false

theorem jsonLookup_map_replace (key : String) (v : Json) :
    ∀ (fields : List (String × Json)), (jsonLookup fields key).isSome = true →
      jsonLookup (fields.map (fun p => if p.1 = key then (key, v) else p)) key
        = some v := by
  intro fields
  induction fields with
  | nil => intro h; simp [jsonLookup] at h
  | cons p rest ih =>
    intro h
    by_cases hp : p.1 = key
    · simp [jsonLookup, hp]
    · rw [jsonLookup, if_neg hp] at h
      simp only [List.map_cons, if_neg hp]
      rw [jsonLookup, if_neg hp]
      exact ih h

theorem jsonLookup_append_right (key : String) :
    ∀ (fields l : List (String × Json)), jsonLookup fields key = none →
      jsonLookup (fields ++ l) key = jsonLookup l key := by
  intro fields
  induction fields with
  | nil => intro l _; simp
  | cons p rest ih =>
    intro l h
    by_cases hp : p.1 = key
    · rw [jsonLookup, if_pos hp] at h; simp at h
    · rw [jsonLookup, if_neg hp] at h
      rw [List.cons_append, jsonLookup, if_neg hp]
      exact ih l h

theorem jsonLookup_setProp (key : String) (v : Json)
    (fields : List (String × Json)) :
    jsonLookup (setProp fields key v) key = some v := by
  unfold setProp
  by_cases h : (jsonLookup fields key).isSome = true
  · rw [if_pos h]
    exact jsonLookup_map_replace key v fields h
  · rw [if_neg h]
    have hnone : jsonLookup fields key = none := by
      cases hj : jsonLookup fields key with
      | none => rfl
      | some x => rw [hj] at h; simp at h
    rw [jsonLookup_append_right key fields _ hnone]
    simp [jsonLookup]

theorem requestLoop_last (backoff : Nat) (retryable : Bool)
    (f : Nat → TransportOutcome) (attempt : Nat) :
    (requestLoop backoff retryable f attempt 1).calls = 1 := by
  simp only [requestLoop]
  cases f attempt with
  | fail => simp
  | resp r =>
    dsimp only
    rw [if_neg (by simp)]

/-- C1: `requestJson` makes at most `1 + maxRetries` physical attempts for a
retryable operation and exactly one for a non-retryable one; `createIntent`
without an idempotency key builds a non-retryable POST descriptor, so the
transport is called exactly once whatever the responses; with a (non-empty)
key it builds a retryable descriptor, and a retryable call whose first `k`
outcomes keep it retrying returns the parsed body of the first 2xx response
in `k + 1` calls, provided `k` is within the budget. -/
theorem claim_C1_attempt_budget :
    (∀ (maxRetries backoff : Nat) (retryable : Bool) (f : Nat → TransportOutcome),
      (requestJson maxRetries backoff retryable f).calls ≤ 1 + maxRetries) ∧
    (∀ (maxRetries backoff : Nat) (f : Nat → TransportOutcome),
      (requestJson maxRetries backoff false f).calls = 1) ∧
    (∀ payload correlationId traceId d,
      createIntent payload ⟨correlationId, none, traceId⟩ = Except.ok d →
      d.method = "POST" ∧ d.retryable = false ∧
      ∀ (maxRetries backoff : Nat) (f : Nat → TransportOutcome),
        (requestJson maxRetries backoff d.retryable f).calls = 1) ∧
    (∀ payload correlationId k traceId d, k ≠ "" →
      createIntent payload ⟨correlationId, some k, traceId⟩ = Except.ok d →
      d.method = "POST" ∧ d.retryable = true) ∧
    (∀ (n backoff : Nat) (f : Nat → TransportOutcome) (k : Nat)
        (r : HttpResponse) (j : Json),
      k < 1 + n → (∀ i, i < k → retryContinues (f i)) →
      f k = TransportOutcome.resp r → 200 ≤ r.status → r.status ≤ 299 →
      r.bodyJson = some j →
      (requestJson n backoff true f).result = Except.ok j ∧
      (requestJson n backoff true f).calls = k + 1) := by
  refine ⟨?_, ?_, ?_, ?_, ?_⟩
  · intro maxRetries backoff retryable f
    refine le_trans (requestLoop_calls_le backoff retryable f _ 0) ?_
    unfold attemptBudget
    split <;> omega
  · intro maxRetries backoff f
    exact requestLoop_last backoff false f 0
  · intro payload correlationId traceId d hok
    unfold createIntent at hok
    split at hok
    · cases hok
    · have hd := (Except.ok.injEq _ _).mp hok
      refine ⟨by rw [← hd], by rw [← hd]; rfl, ?_⟩
      intro maxRetries backoff f
      rw [← hd]
      exact requestLoop_last backoff _ f 0
  · intro payload correlationId k traceId d hk hok
    unfold createIntent at hok
    split at hok
    · cases hok
    · have hd := (Except.ok.injEq _ _).mp hok
      refine ⟨by rw [← hd], by rw [← hd]; simp [strOptTruthy, hk]⟩
  · intro n backoff f k r j hk hcont hf h1 h2 hb
    have := requestLoop_first backoff f r j h1 h2 hb k 0
      (1 + n) (by simpa [attemptBudget] using hk)
      (by simpa using hcont) (by simpa using hf)
    simpa [requestJson, attemptBudget] using this

/-- Witness for C1 at concrete inputs: a non-retryable call against a server
that always answers 500 makes exactly one attempt; a retryable call with
budget 1 + 3 makes at most four; two retryable 500s followed by a 200 yield
the 200's parsed body on the third call. -/
theorem claim_C1_attempt_budget_witness :
    (requestJson 3 200 false
      (fun _ => TransportOutcome.resp ⟨500, [], some (Json.obj []), ""⟩)).calls = 1 ∧
    (requestJson 3 200 true
      (fun _ => TransportOutcome.resp ⟨500, [], some (Json.obj []), ""⟩)).calls ≤ 1 + 3 ∧
    (createIntent [] ⟨"cid-1", none, none⟩ = Except.ok
      ⟨"POST", "/v1/intents", some (Json.obj [("correlation_id", Json.str "cid-1")]),
        none, none, false⟩) ∧
    (requestJson 3 0 true
      (fun i => if i < 2 then TransportOutcome.resp ⟨500, [], none, ""⟩
        else TransportOutcome.resp ⟨200, [],
          some (Json.obj [("intent_id", Json.str "it_1")]), ""⟩)).result
      = Except.ok (Json.obj [("intent_id", Json.str "it_1")]) ∧
    (requestJson 3 0 true
      (fun i => if i < 2 then TransportOutcome.resp ⟨500, [], none, ""⟩
        else TransportOutcome.resp ⟨200, [],
          some (Json.obj [("intent_id", Json.str "it_1")]), ""⟩)).calls = 2 + 1 := by
  have hcont : ∀ i, i < 2 → retryContinues
      ((fun i => if i < 2 then TransportOutcome.resp (⟨500, [], none, ""⟩ : HttpResponse)
        else TransportOutcome.resp ⟨200, [],
          some (Json.obj [("intent_id", Json.str "it_1")]), ""⟩) i) := by
    intro i hi
    have h2 : i = 0 ∨ i = 1 := by omega
    rcases h2 with rfl | rfl <;> exact rfl
  have hlast := claim_C1_attempt_budget.2.2.2.2 3 0 _ 2 _ _ (by omega) hcont rfl
    (by norm_num) (by norm_num) rfl
  exact ⟨claim_C1_attempt_budget.2.1 3 200 _,
    claim_C1_attempt_budget.1 3 200 true _,
    (claim_C1_attempt_budget.2.2.1 [] "cid-1" none _ rfl).1 ▸ rfl,
    hlast.1, hlast.2⟩

/-- C2: the classifier produces exactly one kind per failed response, chosen
by status code exactly as the specification's mapping states (401/403 auth;
400/409/413/422 validation; 429 rate-limit, with `retryAfter` the base-10
integer parse of the `retry-after` header when present and numeric,
otherwise `none`; at least 500 server; everything else generic), and it
preserves the status code. -/
theorem claim_C2_classifier_mapping (r : HttpResponse) :
    (buildHttpError r).statusCode = r.status ∧
    (buildHttpError r).kind = specStatusKind r.status ∧
    (buildHttpError r).retryAfter
      = parseRetryAfter (headerGet r.headers "retry-after") ∧
    ((r.status = 401 ∨ r.status = 403) →
      (buildHttpError r).kind = AxmeErrorKind.auth) ∧
    ((r.status = 400 ∨ r.status = 409 ∨ r.status = 413 ∨ r.status = 422) →
      (buildHttpError r).kind = AxmeErrorKind.validation) ∧
    (r.status = 429 → (buildHttpError r).kind = AxmeErrorKind.rateLimit) ∧
    (500 ≤ r.status → (buildHttpError r).kind = AxmeErrorKind.server) ∧
    (¬(r.status = 401 ∨ r.status = 403) →
      ¬(r.status = 400 ∨ r.status = 409 ∨ r.status = 413 ∨ r.status = 422) →
      r.status ≠ 429 → r.status < 500 →
      (buildHttpError r).kind = AxmeErrorKind.generic) := by
  refine ⟨rfl, rfl, rfl, ?_, ?_, ?_, ?_, ?_⟩
  · intro h
    simp only [buildHttpError]
    rw [if_pos h]
  · intro h
    simp only [buildHttpError]
    rw [if_neg (by omega), if_pos h]
  · intro h
    simp only [buildHttpError]
    rw [if_neg (by omega), if_neg (by omega), if_pos h]
  · intro h
    simp only [buildHttpError]
    rw [if_neg (by omega), if_neg (by omega), if_neg (by omega), if_pos h]
  · intro h1 h2 h3 h4
    simp only [buildHttpError]
    rw [if_neg h1, if_neg h2, if_neg h3, if_neg (by omega)]

/-- Witness for C2 at a concrete 429 response carrying `Retry-After: 20`:
the classifier yields the rate-limit kind with `retryAfter = 20`, and at a
418 response it falls back to the generic kind. -/
theorem claim_C2_classifier_mapping_witness :
    (buildHttpError ⟨429, [("Retry-After", "20")], none, "slow down"⟩).kind
      = AxmeErrorKind.rateLimit ∧
    (buildHttpError ⟨429, [("Retry-After", "20")], none, "slow down"⟩).retryAfter
      = some 20 ∧
    (buildHttpError ⟨418, [], none, "teapot"⟩).kind = AxmeErrorKind.generic ∧
    (buildHttpError ⟨503, [], none, "down"⟩).kind = AxmeErrorKind.server ∧
    (buildHttpError ⟨403, [], none, "no"⟩).kind = AxmeErrorKind.auth ∧
    (buildHttpError ⟨422, [], none, "bad"⟩).kind = AxmeErrorKind.validation := by
  refine ⟨(claim_C2_classifier_mapping _).2.2.2.2.2.1 rfl,
    ((claim_C2_classifier_mapping
      (⟨429, [("Retry-After", "20")], none, "slow down"⟩ : HttpResponse)).2.2.1).trans
      (by decide),
    (claim_C2_classifier_mapping _).2.2.2.2.2.2.2 (by decide) (by decide)
      (by decide) (by decide),
    (claim_C2_classifier_mapping _).2.2.2.2.2.2.1 (by decide),
    (claim_C2_classifier_mapping _).2.2.2.1 (Or.inr rfl),
    (claim_C2_classifier_mapping _).2.2.2.2.1 (by decide)⟩

/-- C3: when a retryable call receives a completed retryable-status response
before its last allowed attempt, it waits once and continues with the next
attempt; the wait is the parsed `retry-after` value in seconds converted to
milliseconds and floored at zero when the header parses, else the
exponential backoff — the header always takes precedence. -/
theorem claim_C3_retry_wait (backoff : Nat) (f : Nat → TransportOutcome)
    (attempt n : Nat) (r : HttpResponse)
    (hf : f attempt = TransportOutcome.resp r)
    (hr : isRetryableStatus r.status = true) :
    (requestLoop backoff true f attempt (n + 2)).waits
      = retryWait backoff attempt r
          :: (requestLoop backoff true f (attempt + 1) (n + 1)).waits ∧
    (requestLoop backoff true f attempt (n + 2)).calls
      = (requestLoop backoff true f (attempt + 1) (n + 1)).calls + 1 ∧
    (requestLoop backoff true f attempt (n + 2)).result
      = (requestLoop backoff true f (attempt + 1) (n + 1)).result ∧
    (∀ ra, parseRetryAfter (headerGet r.headers "retry-after") = some ra →
      retryWait backoff attempt r = (max ra 0).toNat * 1000) ∧
    (parseRetryAfter (headerGet r.headers "retry-after") = none →
      retryWait backoff attempt r = backoff * 2 ^ attempt) := by
  have hstep : requestLoop backoff true f attempt (n + 2) =
      ⟨(requestLoop backoff true f (attempt + 1) (n + 1)).result,
        (requestLoop backoff true f (attempt + 1) (n + 1)).calls + 1,
        retryWait backoff attempt r
          :: (requestLoop backoff true f (attempt + 1) (n + 1)).waits⟩ := by
    show requestLoop backoff true f attempt (n + 1 + 1) = _
    simp only [requestLoop, hf]
    rw [if_pos ⟨trivial, by omega, hr⟩]
  refine ⟨by rw [hstep], by rw [hstep], by rw [hstep], ?_, ?_⟩
  · intro ra hra
    unfold retryWait
    rw [hra]
  · intro hnone
    unfold retryWait
    rw [hnone]

/-- Witness for C3 at a concrete 429 response with `Retry-After: 20` and a
concrete 500 response with no header: the first waits 20000 ms, the second
the exponential backoff. -/
theorem claim_C3_retry_wait_witness :
    (requestLoop 100 true
      (fun _ => TransportOutcome.resp ⟨429, [("retry-after", "20")], none, ""⟩)
      0 2).waits
      = 20000 :: (requestLoop 100 true
        (fun _ => TransportOutcome.resp ⟨429, [("retry-after", "20")], none, ""⟩)
        1 1).waits ∧
    (requestLoop 100 true
      (fun _ => TransportOutcome.resp ⟨500, [], none, ""⟩) 1 3).waits
      = 100 * 2 ^ 1 :: (requestLoop 100 true
        (fun _ => TransportOutcome.resp ⟨500, [], none, ""⟩) 2 2).waits := by
  constructor
  · have h := claim_C3_retry_wait 100
      (fun _ => TransportOutcome.resp ⟨429, [("retry-after", "20")], none, ""⟩)
      0 0 ⟨429, [("retry-after", "20")], none, ""⟩ rfl rfl
    rw [h.1, h.2.2.2.1 20 (by decide)]
    norm_num
    decide
  · have h := claim_C3_retry_wait 100
      (fun _ => TransportOutcome.resp ⟨500, [], none, ""⟩)
      1 1 ⟨500, [], none, ""⟩ rfl rfl
    rw [h.1, h.2.2.2.2 (by decide)]

/-- C4 (amended): every REST endpoint wrapper that POSTs sets the retryable
flag to the truthiness of its idempotency key, so none of them ever marks a
POST without an `Idempotency-Key` header retryable; the MCP tool-protocol
methods however POST through the same engine with no idempotency-key header
at all, with `mcpInitialize` and `mcpListTools` hard-coding
`retryable: true`, and `mcpCallTool` defaulting its retryable flag to the
presence of the (argument-embedded, never header-carried) idempotency key
while allowing an explicit override. -/
theorem claim_C4_post_idempotency :
    (∀ payload options d, createIntent payload options = Except.ok d →
      postRetrySafe d) ∧
    (∀ a b options, postRetrySafe (resolveIntent a b options)) ∧
    (∀ a b options, postRetrySafe (replyInboxThread a b options)) ∧
    (∀ a b options, postRetrySafe (delegateInboxThread a b options)) ∧
    (∀ a b options, postRetrySafe (approveInboxThread a b options)) ∧
    (∀ a b options, postRetrySafe (rejectInboxThread a b options)) ∧
    (∀ a b options, postRetrySafe (deleteInboxMessages a b options)) ∧
    (∀ a b options, postRetrySafe (decideApproval a b options)) ∧
    (∀ a options, postRetrySafe (createInvite a options)) ∧
    (∀ a b options, postRetrySafe (acceptInvite a b options)) ∧
    (∀ a options, postRetrySafe (createMediaUpload a options)) ∧
    (∀ a options, postRetrySafe (finalizeMediaUpload a options)) ∧
    (∀ a options, postRetrySafe (upsertSchema a options)) ∧
    (∀ a options, postRetrySafe (registerNick a options)) ∧
    (∀ a options, postRetrySafe (renameNick a options)) ∧
    (∀ a options, postRetrySafe (updateUserProfile a options)) ∧
    (∀ a options, postRetrySafe (upsertWebhookSubscription a options)) ∧
    (∀ a options, postRetrySafe (publishWebhookEvent a options)) ∧
    (∀ a options, postRetrySafe (replayWebhookEvent a options)) ∧
    (∀ path traceId rpcId pv,
      (mcpInitializeDescriptor path traceId rpcId pv).method = "POST" ∧
      carriesIdempotencyKeyHeader (mcpInitializeDescriptor path traceId rpcId pv)
        = false ∧
      (mcpInitializeDescriptor path traceId rpcId pv).retryable = true) ∧
    (∀ path traceId rpcId,
      (mcpListToolsDescriptor path traceId rpcId).method = "POST" ∧
      carriesIdempotencyKeyHeader (mcpListToolsDescriptor path traceId rpcId)
        = false ∧
      (mcpListToolsDescriptor path traceId rpcId).retryable = true) ∧
    (∀ path traceId ro key p,
      (mcpCallToolDescriptor path traceId ro key p).method = "POST" ∧
      carriesIdempotencyKeyHeader (mcpCallToolDescriptor path traceId ro key p)
        = false ∧
      (mcpCallToolDescriptor path traceId ro key p).retryable
        = mcpCallToolRetryable ro key) ∧
    (∀ key, mcpCallToolRetryable none key = strOptTruthy key) := by
  have hsafe : ∀ (m p : String) (b : Option Json) (k t : Option String),
      postRetrySafe ⟨m, p, b, k, t, strOptTruthy k⟩ := by
    intro m p b k t _ hk
    exact hk
  refine ⟨?_, fun a b o => hsafe _ _ _ _ _, fun a b o => hsafe _ _ _ _ _,
    fun a b o => hsafe _ _ _ _ _, fun a b o => hsafe _ _ _ _ _,
    fun a b o => hsafe _ _ _ _ _, fun a b o => hsafe _ _ _ _ _,
    fun a b o => hsafe _ _ _ _ _, fun a o => hsafe _ _ _ _ _,
    fun a b o => hsafe _ _ _ _ _, fun a o => hsafe _ _ _ _ _,
    fun a o => hsafe _ _ _ _ _, fun a o => hsafe _ _ _ _ _,
    fun a o => hsafe _ _ _ _ _, fun a o => hsafe _ _ _ _ _,
    fun a o => hsafe _ _ _ _ _, fun a o => hsafe _ _ _ _ _,
    fun a o => hsafe _ _ _ _ _, fun a o => hsafe _ _ _ _ _,
    fun path traceId rpcId pv => ⟨rfl, rfl, rfl⟩,
    fun path traceId rpcId => ⟨rfl, rfl, rfl⟩,
    fun path traceId ro key p => ⟨rfl, rfl, rfl⟩,
    fun key => rfl⟩
  intro payload options d hok
  unfold createIntent at hok
  split at hok
  · cases hok
  · have hd := (Except.ok.injEq _ _).mp hok
    rw [← hd]
    exact hsafe _ _ _ _ _

/-- Counterexample to C4 as stated: `mcpInitialize` builds, through the
shared engine, a POST request descriptor that carries no `Idempotency-Key`
header yet is marked retryable. -/
theorem claim_C4_post_idempotency_counterexample :
    ¬ postRetrySafe (mcpInitializeDescriptor "/mcp" none "rpc-1" "2024-11-05") := by
  intro h
  have := h rfl rfl
  simp [mcpInitializeDescriptor, mcpRequestDescriptor] at this

/-- C5 (amended): within one `observe` call a terminal event, if yielded, is
always the last yielded event; and the yielded events are non-decreasing in
their numeric `seq` values provided the server's responses, concatenated in
served order, are — the loop yields events in served page order and never
reorders, so an out-of-order server page is passed through as-is. -/
theorem claim_C5_yield_ordering (since : Rat) (cycles : List ObserveCycleInput) :
    (∀ e ∈ (observeLoop since cycles).yielded.dropLast,
      isTerminalIntentEvent e = false) ∧
    (List.Pairwise (· ≤ ·) (numericSeqs (servedEvents cycles)) →
      List.Pairwise (· ≤ ·) (numericSeqs ((observeLoop since cycles).yielded))) := by
  refine ⟨observeLoop_dropLast cycles since, ?_⟩
  intro hsorted
  have hsub : (observeLoop since cycles).yielded.Sublist (servedEvents cycles) :=
    observeLoop_yield_sublist cycles since
  exact List.Pairwise.sublist (hsub.filterMap _) hsorted

/-- Counterexample to C5 as stated: a single stream page serving seq 5 then
seq 3 is yielded in that order, so the yielded seq values decrease. -/
theorem claim_C5_yield_ordering_counterexample :
    numericSeqs ((observeLoop 0
      [⟨Except.ok [Json.obj [("seq", Json.num 5)], Json.obj [("seq", Json.num 3)]],
        Except.ok (Json.obj [("events", Json.arr [])])⟩]).yielded)
      = [5, 3] ∧
    ¬ List.Pairwise (· ≤ ·) ([5, 3] : List Rat) := by
  constructor
  · rfl
  · decide

/-- Witness for C5 at a concrete script whose served events are sorted by
seq: the yields are sorted too. -/
theorem claim_C5_yield_ordering_witness :
    List.Pairwise (· ≤ ·)
      (numericSeqs ((observeLoop 0
        [⟨Except.ok [Json.obj [("seq", Json.num 1)]],
          Except.ok (Json.obj [("events", Json.arr
            [Json.obj [("seq", Json.num 2), ("status", Json.str "COMPLETED")]])])⟩]).yielded)) :=
  (claim_C5_yield_ordering 0 _).2 (by decide)

/-- C9: across one `observe` run, the cursor values used for successive
requests (and the final cursor) form a non-decreasing chain anchored at the
caller's initial `since`, so the cursor never decreases and never drops
below `since`; `maxSeenSeq` advances the cursor only on an event whose
`seq` is a non-negative integer number (taking the max), leaving it
untouched otherwise; and an event of object type with an invalid `seq` is
still yielded by the event loop. -/
theorem claim_C9_cursor_invariants (since : Rat) (cycles : List ObserveCycleInput) :
    monoFrom since ((observeLoop since cycles).sinceUsed
      ++ [(observeLoop since cycles).endCursor]) ∧
    (∀ x ∈ (observeLoop since cycles).sinceUsed, since ≤ x) ∧
    since ≤ (observeLoop since cycles).endCursor ∧
    (∀ (c : Rat) (e : Json), validSeq e = none → maxSeenSeq c e = c) ∧
    (∀ (c : Rat) (e : Json) (q : Rat), validSeq e = some q →
      maxSeenSeq c e = max c q) ∧
    (∀ (c : Rat) (e : Json), jsKeep e = true → isTerminalIntentEvent e = false →
      (processEvents true c [e]).yielded = [e] ∧
      (processEvents true c [e]).cursor = maxSeenSeq c e) := by
  have hm := observeLoop_mono cycles since
  refine ⟨hm, ?_, ?_, ?_, ?_, ?_⟩
  · intro x hx
    exact monoFrom_all hm x (List.mem_append_left _ hx)
  · exact monoFrom_all hm _ (List.mem_append_right _ (by simp))
  · intro c e hv
    unfold validSeq at hv
    unfold maxSeenSeq
    cases hp : e.getProp "seq" with
    | none => rfl
    | some v =>
      rw [hp] at hv
      cases v with
      | num q =>
        dsimp only at hv ⊢
        by_cases hq : q.den = 1 ∧ 0 ≤ q
        · rw [if_pos hq] at hv; cases hv
        · rw [if_neg hq]
      | null => rfl
      | bool b => rfl
      | str s => rfl
      | arr l => rfl
      | obj fs => rfl
  · intro c e q hv
    unfold validSeq at hv
    unfold maxSeenSeq
    cases hp : e.getProp "seq" with
    | none => rw [hp] at hv; cases hv
    | some v =>
      rw [hp] at hv
      cases v with
      | num q2 =>
        dsimp only at hv ⊢
        by_cases hq : q2.den = 1 ∧ 0 ≤ q2
        · rw [if_pos hq] at hv ⊢
          injection hv with hh
          rw [hh]
        · rw [if_neg hq] at hv; cases hv
      | null => dsimp only at hv; cases hv
      | bool b => dsimp only at hv; cases hv
      | str s => dsimp only at hv; cases hv
      | arr l => dsimp only at hv; cases hv
      | obj fs => dsimp only at hv; cases hv
  · intro c e hk ht
    constructor
    · simp [processEvents, hk, ht]
    · simp [processEvents, hk, ht]

/-- Witness for C9 at concrete inputs: string, boolean and negative
`seq` values leave the cursor unchanged; a valid `seq` advances it to the
max; an object event without a valid `seq` is still yielded; the cursor
chain of a concrete two-cycle run is non-decreasing from the initial 0. -/
theorem claim_C9_cursor_invariants_witness :
    maxSeenSeq 7 (Json.obj [("seq", Json.str "x")]) = 7 ∧
    maxSeenSeq 7 (Json.obj [("seq", Json.bool true)]) = 7 ∧
    maxSeenSeq 7 (Json.obj [("seq", Json.num (-2))]) = 7 ∧
    maxSeenSeq 3 (Json.obj [("seq", Json.num 9)]) = max 3 9 ∧
    (processEvents true 5 [Json.obj [("note", Json.str "no seq")]]).yielded
      = [Json.obj [("note", Json.str "no seq")]] ∧
    monoFrom 0 ((observeLoop 0
        [⟨Except.ok [Json.obj [("seq", Json.num 4)]],
          Except.ok (Json.obj [("events", Json.arr [])])⟩,
         ⟨Except.ok [],
          Except.ok (Json.obj [("events", Json.arr
            [Json.obj [("seq", Json.num 6)]])])⟩]).sinceUsed
      ++ [(observeLoop 0
        [⟨Except.ok [Json.obj [("seq", Json.num 4)]],
          Except.ok (Json.obj [("events", Json.arr [])])⟩,
         ⟨Except.ok [],
          Except.ok (Json.obj [("events", Json.arr
            [Json.obj [("seq", Json.num 6)]])])⟩]).endCursor]) := by
  refine ⟨(claim_C9_cursor_invariants 0 []).2.2.2.1 7 _ (by decide),
    (claim_C9_cursor_invariants 0 []).2.2.2.1 7 _ (by decide),
    (claim_C9_cursor_invariants 0 []).2.2.2.1 7 _ (by decide),
    (claim_C9_cursor_invariants 0 []).2.2.2.2.1 3 _ 9 (by decide),
    ((claim_C9_cursor_invariants 0 []).2.2.2.2.2 5 _ (by decide) (by decide)).1,
    (claim_C9_cursor_invariants 0 _).1⟩

/-- C6: when the push-path request fails with an `AxmeHttpError` whose
status is 404, 405 or 501, the cycle behaves exactly as if the stream had
returned no events — it proceeds to the pull path; any other failure (other
status, or a non-HTTP error) makes the whole observation fail with that
error immediately, with nothing yielded. -/
theorem claim_C6_stream_fallback (c : Rat) (e : ObsError)
    (p : Except ObsError Json) (rest : List ObserveCycleInput) :
    (isStreamFallbackError e = true →
      observeLoop c (⟨Except.error e, p⟩ :: rest)
        = observeLoop c (⟨Except.ok [], p⟩ :: rest)) ∧
    (isStreamFallbackError e = false →
      observeLoop c (⟨Except.error e, p⟩ :: rest)
        = ⟨[], [c], ObserveEnd.failed e, c⟩) ∧
    (∀ he, isStreamFallbackError (ObsError.http he) = true ↔
      (he.statusCode = 404 ∨ he.statusCode = 405 ∨ he.statusCode = 501)) ∧
    (∀ s, isStreamFallbackError (ObsError.other s) = false) := by
  refine ⟨?_, ?_, ?_, fun s => rfl⟩
  · intro h
    have h1 : runCycle c ⟨Except.error e, p⟩ = runCyclePoll c c [] p := by
      rw [runCycle]
      dsimp only
      rw [if_pos h]
    have h2 : runCycle c ⟨Except.ok [], p⟩ = runCyclePoll c c [] p := by
      rw [runCycle]
      dsimp only
      rw [if_neg (by simp [processEvents])]
      rfl
    simp only [observeLoop, h1, h2]
  · intro h
    have h1 : runCycle c ⟨Except.error e, p⟩
        = CycleOutcome.stop [] [c] (some e) c := by
      rw [runCycle]
      dsimp only
      rw [if_neg (by simp [h])]
    rw [observeLoop_stop h1]
  · intro he
    simp [isStreamFallbackError, or_assoc]

/-- Witness for C6 at concrete inputs: a 404 stream failure falls back to
the pull path (the run equals the run with an empty stream page), and a
non-HTTP failure propagates immediately. -/
theorem claim_C6_stream_fallback_witness :
    observeLoop 0 [⟨Except.error (ObsError.http
        ⟨AxmeErrorKind.generic, 404, "not found", none, none, none, none⟩),
      Except.ok (Json.obj [("events", Json.arr [])])⟩]
      = observeLoop 0 [⟨Except.ok [],
        Except.ok (Json.obj [("events", Json.arr [])])⟩] ∧
    observeLoop 0 [⟨Except.error (ObsError.other "connection reset"),
      Except.ok (Json.obj [("events", Json.arr [])])⟩]
      = ⟨[], [0], ObserveEnd.failed (ObsError.other "connection reset"), 0⟩ :=
  ⟨(claim_C6_stream_fallback 0 _ _ _).1 rfl,
    (claim_C6_stream_fallback 0 _ _ _).2.1 rfl⟩

theorem runCyclePoll_shape (c1 c0 : Rat) (ys1 : List Json) (polled : Json)
    (hne : ∀ es, polled.getProp "events" ≠ some (Json.arr es)) :
    runCyclePoll c1 c0 ys1 (Except.ok polled) =
      CycleOutcome.stop ys1 [c0, c1]
        (some (ObsError.http (invalidEventsPayloadError polled))) c1 := by
  unfold runCyclePoll
  dsimp only
  cases hp : polled.getProp "events" with
  | none => rfl
  | some v =>
    cases v with
    | arr es => exact absurd hp (hne es)
    | null => rfl
    | bool b => rfl
    | num q => rfl
    | str s => rfl
    | obj fs => rfl

/-- C7 (amended): a pull-path response without an array under `events`
fails the observation with the 502 `AxmeHttpError` built at the call site —
the generic kind, not the `AxmeServerError` kind — and an MCP envelope
without an object-typed `result` (and no object-typed `error`) likewise
raises the generic `AxmeHttpError` with status 502. -/
theorem claim_C7_shape_violation_errors (c : Rat) (polled : Json)
    (rest : List ObserveCycleInput)
    (hne : ∀ es, polled.getProp "events" ≠ some (Json.arr es)) :
    ((observeLoop c (⟨Except.ok [], Except.ok polled⟩ :: rest)).final
      = ObserveEnd.failed (ObsError.http (invalidEventsPayloadError polled)) ∧
     (invalidEventsPayloadError polled).statusCode = 502 ∧
     (invalidEventsPayloadError polled).kind = AxmeErrorKind.generic) ∧
    (∀ response : Json,
      (∀ ev, response.getProp "error" = some ev → jsKeep ev = false) →
      (∀ rv, response.getProp "result" = some rv → jsKeep rv = false) →
      mcpExtractResult response = Except.error (mcpMissingResultError response) ∧
      (mcpMissingResultError response).statusCode = 502 ∧
      (mcpMissingResultError response).kind = AxmeErrorKind.generic) := by
  constructor
  · refine ⟨?_, rfl, rfl⟩
    have h1 : runCycle c ⟨Except.ok [], Except.ok polled⟩ =
        CycleOutcome.stop [] [c, c]
          (some (ObsError.http (invalidEventsPayloadError polled))) c := by
      rw [runCycle]
      dsimp only
      rw [if_neg (by simp [processEvents])]
      exact runCyclePoll_shape c c [] polled hne
    rw [observeLoop_stop h1]
  · intro response herr hres
    refine ⟨?_, rfl, rfl⟩
    unfold mcpExtractResult
    cases he : response.getProp "error" with
    | none =>
      cases hr : response.getProp "result" with
      | none => rfl
      | some rv =>
        dsimp only
        rw [if_neg (by simp [hres rv hr])]
    | some ev =>
      dsimp only
      rw [if_neg (by simp [herr ev he])]
      cases hr : response.getProp "result" with
      | none => rfl
      | some rv =>
        dsimp only
        rw [if_neg (by simp [hres rv hr])]

/-- Counterexample to C7 as stated: both shape violations raise the generic
`AxmeHttpError` kind (with status 502), not an error of the server-error
kind. -/
theorem claim_C7_shape_violation_errors_counterexample :
    (observeLoop 0 [⟨Except.ok [],
      Except.ok (Json.obj [("ok", Json.bool true)])⟩]).final
      = ObserveEnd.failed (ObsError.http
          ⟨AxmeErrorKind.generic, 502,
            "invalid intent events payload: events must be list",
            some (Json.obj [("ok", Json.bool true)]), none, none, none⟩) ∧
    mcpExtractResult (Json.obj [])
      = Except.error ⟨AxmeErrorKind.generic, 502,
          "invalid MCP response: missing result object", some (Json.obj []),
          none, none, none⟩ ∧
    AxmeErrorKind.generic ≠ AxmeErrorKind.server :=
  ⟨rfl, rfl, by decide⟩

/-- Witness for C7 (amended) at concrete inputs: a string pull-path body and
an MCP envelope whose `result` is a plain string. -/
theorem claim_C7_shape_violation_errors_witness :
    (observeLoop 0 [⟨Except.ok [], Except.ok (Json.str "nope")⟩]).final
      = ObserveEnd.failed (ObsError.http (invalidEventsPayloadError (Json.str "nope"))) ∧
    mcpExtractResult (Json.obj [("result", Json.str "x")])
      = Except.error (mcpMissingResultError (Json.obj [("result", Json.str "x")])) := by
  refine ⟨(claim_C7_shape_violation_errors 0 (Json.str "nope") []
      (fun es h => by cases h)).1.1,
    ((claim_C7_shape_violation_errors 0 (Json.str "nope") []
      (fun es h => by cases h)).2 (Json.obj [("result", Json.str "x")])
      (fun ev h => by cases h)
      (fun rv h => by cases h; rfl)).1⟩

/-- C8: `createIntent` rejects a payload embedding a string `correlation_id`
different from the option with a plain local error — no request descriptor
is ever built, so the transport is never called and the error is not a
classified HTTP error; when the embedded id is absent or equal to the
option, the call proceeds and the outgoing body's `correlation_id` field
carries the option's value. -/
theorem claim_C8_correlation_id (payload : List (String × Json))
    (options : CreateIntentOptions) :
    (∀ s, jsonLookup payload "correlation_id" = some (Json.str s) →
      s ≠ options.correlationId →
      createIntent payload options
        = Except.error "payload correlation_id must match options.correlationId") ∧
    ((jsonLookup payload "correlation_id" = none ∨
      jsonLookup payload "correlation_id" = some (Json.str options.correlationId)) →
      createIntent payload options = Except.ok
        ⟨"POST", "/v1/intents",
          some (Json.obj (setProp payload "correlation_id"
            (Json.str options.correlationId))),
          options.idempotencyKey, options.traceId,
          strOptTruthy options.idempotencyKey⟩ ∧
      jsonLookup (setProp payload "correlation_id"
        (Json.str options.correlationId)) "correlation_id"
        = some (Json.str options.correlationId)) := by
  constructor
  · intro s hs hne
    have hm : createIntentMismatch payload options = true := by
      unfold createIntentMismatch
      rw [hs]
      simpa using hne
    unfold createIntent
    rw [if_pos hm]
  · intro hcase
    have hm : createIntentMismatch payload options = false := by
      unfold createIntentMismatch
      rcases hcase with h | h
      · rw [h]
      · rw [h]; simp
    refine ⟨?_, jsonLookup_setProp _ _ _⟩
    unfold createIntent
    rw [if_neg (by simp [hm])]

/-- Witness for C8 at concrete inputs: a conflicting embedded id fails
locally; a matching pair succeeds with the option's value in the outgoing
body. -/
theorem claim_C8_correlation_id_witness :
    createIntent [("correlation_id", Json.str "a")] ⟨"b", none, none⟩
      = Except.error "payload correlation_id must match options.correlationId" ∧
    createIntent [("correlation_id", Json.str "b"), ("note", Json.str "n")]
      ⟨"b", some "k", none⟩
      = Except.ok ⟨"POST", "/v1/intents",
          some (Json.obj [("correlation_id", Json.str "b"), ("note", Json.str "n")]),
          some "k", none, true⟩ ∧
    jsonLookup (setProp [("correlation_id", Json.str "b"), ("note", Json.str "n")]
      "correlation_id" (Json.str "b")) "correlation_id"
      = some (Json.str "b") := by
  have h2 := (claim_C8_correlation_id
    [("correlation_id", Json.str "b"), ("note", Json.str "n")]
    ⟨"b", some "k", none⟩).2 (Or.inr rfl)
  exact ⟨(claim_C8_correlation_id [("correlation_id", Json.str "a")]
      ⟨"b", none, none⟩).1 "a" rfl (by decide),
    h2.1.trans (by rfl), h2.2⟩

/-- C10 (amended): in the pull path, falsy or non-object-typed elements of
the `events` array are silently skipped — never yielded and never raised as
an error — and every object-typed element (including arrays) is yielded in
order, up to and including the first terminal event, after which the rest
of the page is not examined; on a page whose kept events contain no
terminal event, the yields are exactly the object-typed elements in order. -/
theorem claim_C10_pull_skip_non_objects :
    (∀ (c : Rat) (polled : Json) (events : List Json),
      polled.getProp "events" = some (Json.arr events) →
      (∀ e ∈ events, jsKeep e = true → isTerminalIntentEvent e = false) →
      (observeLoop c [⟨Except.ok [], Except.ok polled⟩]).yielded
        = events.filter (fun e => jsKeep e) ∧
      (observeLoop c [⟨Except.ok [], Except.ok polled⟩]).final
        = ObserveEnd.fuelOut) ∧
    (∀ (c : Rat) (events : List Json),
      (processEvents true c events).yielded.Sublist
        (events.filter (fun e => jsKeep e))) := by
  constructor
  · intro c polled events hp hnt
    have hpe := processEvents_filter_eq events c hnt
    have h1 : runCycle c ⟨Except.ok [], Except.ok polled⟩
        = CycleOutcome.next ((processEvents true c events).yielded) [c, c]
            ((processEvents true c events).cursor) := by
      rw [runCycle]
      dsimp only
      rw [if_neg (by simp [processEvents])]
      show runCyclePoll c c [] (Except.ok polled) = _
      unfold runCyclePoll
      dsimp only
      rw [hp]
      dsimp only
      by_cases he : events.isEmpty = true
      · have heq : events = [] := by simpa [List.isEmpty_iff] using he
        subst heq
        rw [if_pos he]
        simp [processEvents]
      · rw [if_neg he, if_neg (by simp [hpe.2])]
        simp
    rw [observeLoop_next h1]
    constructor
    · show (processEvents true c events).yielded
        ++ (observeLoop (processEvents true c events).cursor []).yielded = _
      simp [observeLoop, hpe.1]
    · simp [observeLoop]
  · exact fun c events => processEvents_filter_sublist events c

/-- Counterexample to C10 as stated: a pull page whose first element is a
terminal event stops the generator, so its second, object-typed element is
never yielded even though the claim promises every object-typed element is. -/
theorem claim_C10_pull_skip_non_objects_counterexample :
    (observeLoop 0 [⟨Except.ok [],
      Except.ok (Json.obj [("events", Json.arr
        [Json.obj [("status", Json.str "COMPLETED")], Json.obj []])])⟩]).yielded
      = [Json.obj [("status", Json.str "COMPLETED")]] ∧
    jsKeep (Json.obj []) = true ∧
    Json.obj [] ∉
      ([Json.obj [("status", Json.str "COMPLETED")]] : List Json) := by
  refine ⟨rfl, rfl, ?_⟩
  intro h
  simp at h

/-- Witness for C10 (amended) at a concrete mixed page: null, number,
string and boolean elements are skipped, the object and the array are
yielded in order, and no error is raised. -/
theorem claim_C10_pull_skip_non_objects_witness :
    (observeLoop 0 [⟨Except.ok [],
      Except.ok (Json.obj [("events", Json.arr
        [Json.null, Json.num 1, Json.obj [("seq", Json.num 1)], Json.str "x",
          Json.arr [], Json.bool true])])⟩]).yielded
      = [Json.obj [("seq", Json.num 1)], Json.arr []] ∧
    (observeLoop 0 [⟨Except.ok [],
      Except.ok (Json.obj [("events", Json.arr
        [Json.null, Json.num 1, Json.obj [("seq", Json.num 1)], Json.str "x",
          Json.arr [], Json.bool true])])⟩]).final = ObserveEnd.fuelOut := by
  have h := claim_C10_pull_skip_non_objects.1 0
    (Json.obj [("events", Json.arr
      [Json.null, Json.num 1, Json.obj [("seq", Json.num 1)], Json.str "x",
        Json.arr [], Json.bool true])])
    [Json.null, Json.num 1, Json.obj [("seq", Json.num 1)], Json.str "x",
      Json.arr [], Json.bool true] rfl (by decide)
  exact ⟨h.1.trans (by rfl), h.2⟩

/-- Witness for C4 (amended) at concrete inputs: REST POST descriptors
without a key are not retryable, while the MCP initialize descriptor is
retryable despite carrying no idempotency-key header. -/
theorem claim_C4_post_idempotency_witness :
    createIntent [] ⟨"cid", none, none⟩ = Except.ok
      ⟨"POST", "/v1/intents", some (Json.obj [("correlation_id", Json.str "cid")]),
        none, none, false⟩ ∧
    (⟨"POST", "/v1/intents", some (Json.obj [("correlation_id", Json.str "cid")]),
        none, none, false⟩ : RequestDescriptor).retryable = false ∧
    (resolveIntent "it_1" (Json.obj []) ⟨none, none⟩).retryable = false ∧
    (mcpInitializeDescriptor "/mcp" none "rpc-2" "2024-11-05").method = "POST" ∧
    carriesIdempotencyKeyHeader
      (mcpInitializeDescriptor "/mcp" none "rpc-2" "2024-11-05") = false ∧
    (mcpInitializeDescriptor "/mcp" none "rpc-2" "2024-11-05").retryable = true := by
  have hmcp := claim_C4_post_idempotency.2.2.2.2.2.2.2.2.2.2.2.2.2.2.2.2.2.2.2.1
    "/mcp" none "rpc-2" "2024-11-05"
  exact ⟨rfl,
    claim_C4_post_idempotency.1 [] ⟨"cid", none, none⟩ _ rfl rfl rfl,
    claim_C4_post_idempotency.2.1 "it_1" (Json.obj []) ⟨none, none⟩ rfl rfl,
    hmcp.1, hmcp.2.1, hmcp.2.2⟩
